import Mathlib

/-!
# Taskify: ownership-scoped CRUD over projects and tasks

A shallow embedding of the request handlers of `usecase/project_usecase.go` and
`usecase/task_usecase.go`.  The relational store behind `config.DB` is a record of three
tables (lists of rows); every handler is a function from the store and the request to a
response and the store after the request.

Conventions of the embedding:

* `uuid.UUID` is a natural number, `uuid.Nil` is `0`;
* a Go `string` / `[]byte` that the code indexes is a list of byte values;
* `uuid.Parse(c.Param(..))` is represented by its outcome, `none` when it returns an error;
* `uuid.New()` is represented by the identifier it returned, an argument of the handler;
* the ORM calls are the SQL statements they issue: `Where(..).First(..)` is the first matching
  row (read into a struct that already holds values, a NULL column leaves its field as it
  was), `Create` is an `INSERT` refused on a duplicate primary key, `Model(&m).Updates(u)` is an
  `UPDATE .. WHERE id = m.ID` that sets every column whose field in `u` is non-zero,
  `Delete` is a `DELETE`, `Preload` loads the referenced rows;
* a Go panic inside a handler is caught by the recovery middleware that `gin.Default()`
  installs in `main.go`, which answers 500 without a body.
-/

namespace Taskify

/-! ## models -/

/-- Type `uuid.UUID`. -/
abbrev UUID := Nat

/-- Type `time.Time`, a wall-clock instant in UTC. -/
structure Time where
  year : Nat
  month : Nat
  day : Nat
  hour : Nat
  minute : Nat
  second : Nat
  nanosecond : Nat
  deriving DecidableEq, Repr

/-- Struct `models.User`; it is also the row of table `users`. -/
structure User where
  ID : UUID
  Name : String
  Email : String
  Password : String
  deriving DecidableEq, Repr

/-- Columns of table `projects`: the fields of `models.Project` without the association. -/
structure ProjectRow where
  ID : UUID
  Name : String
  Description : String
  CreatedByID : UUID
  deriving DecidableEq, Repr

/-- Struct `models.Project`, with the `User` association (`foreignKey:CreatedByID`). -/
structure Project where
  ID : UUID
  Name : String
  Description : String
  CreatedByID : UUID
  User : User
  deriving DecidableEq, Repr

/-- Type `models.TaskStatus`, a string. -/
abbrev TaskStatus := String

/-- Constant `models.Todo`. -/
def Todo : TaskStatus := "todo"
/-- Constant `models.InProgress`. -/
def InProgress : TaskStatus := "in_progress"
/-- Constant `models.Done`. -/
def Done : TaskStatus := "done"

/-- Columns of table `tasks`: the fields of `models.Task` without the association. -/
structure TaskRow where
  ID : UUID
  ProjectID : UUID
  Title : String
  Description : String
  Status : TaskStatus
  Deadline : Option Time
  deriving DecidableEq, Repr

/-- Struct `models.Task`, with the `Project` association (`foreignKey:ProjectID`). -/
structure Task where
  ID : UUID
  ProjectID : UUID
  Title : String
  Description : String
  Status : TaskStatus
  Deadline : Option Time
  Project : Project
  deriving DecidableEq, Repr

/-- The zero value of `models.User`. -/
def User.zero : User := ⟨0, "", "", ""⟩

/-- The zero value of `models.Project`. -/
def Project.zero : Project := ⟨0, "", "", 0, User.zero⟩

/-- JSON scalar written for a field of a model. -/
inductive JSONValue where
  | uuid (u : UUID)
  | str (s : String)
  deriving DecidableEq, Repr

/-- Members of the JSON object written for a `models.User`, by its `json` tags:
`id`, `name`, `email`; `Password` carries the tag `json:"-"` and is not written. -/
def User.marshalJSON (u : User) : List (String × JSONValue) :=
  [("id", .uuid u.ID), ("name", .str u.Name), ("email", .str u.Email)]

/-! ## the store behind `config.DB` -/

/-- The three tables reached through `config.DB`. -/
structure Store where
  users : List User
  projects : List ProjectRow
  tasks : List TaskRow
  deriving DecidableEq, Repr

/-- Primary-key constraint of the three tables: no two rows of a table share an `id`. -/
def Store.wf (db : Store) : Prop :=
  (db.users.map (·.ID)).Nodup ∧ (db.projects.map (·.ID)).Nodup ∧ (db.tasks.map (·.ID)).Nodup

instance (db : Store) : Decidable db.wf := by
  unfold Store.wf; infer_instance

/-- Query `Where("id = ?", id).First(&user)` on `users`. -/
def firstUser (db : Store) (id : UUID) : Option User :=
  db.users.find? (fun r => r.ID == id)

/-- Query `Where("id = ? AND created_by_id = ?", projectID, userID).First(&project)`. -/
def firstOwnedProject (db : Store) (projectID userID : UUID) : Option ProjectRow :=
  db.projects.find? (fun r => r.ID == projectID && r.CreatedByID == userID)

/-- Query `First(&project, "id = ?", id)` on `projects`. -/
def firstProject (db : Store) (id : UUID) : Option ProjectRow :=
  db.projects.find? (fun r => r.ID == id)

/-- Query `Where("id = ? AND project_id = ?", taskID, projectID).First(&task)`. -/
def firstTaskIn (db : Store) (taskID projectID : UUID) : Option TaskRow :=
  db.tasks.find? (fun r => r.ID == taskID && r.ProjectID == projectID)

/-- Query `First(&task, "id = ?", id)` on `tasks`. -/
def firstTask (db : Store) (id : UUID) : Option TaskRow :=
  db.tasks.find? (fun r => r.ID == id)

/-- Clause `Preload("User")`: the project with its creator loaded; the association keeps
its zero value when no user row has the referenced id. -/
def preloadUser (db : Store) (r : ProjectRow) : Project :=
  { ID := r.ID, Name := r.Name, Description := r.Description, CreatedByID := r.CreatedByID,
    User := (firstUser db r.CreatedByID).getD User.zero }

/-- Clause `Preload("Project.User")`: the task with its project, and the project's creator,
loaded. -/
def preloadProjectUser (db : Store) (r : TaskRow) : Task :=
  { ID := r.ID, ProjectID := r.ProjectID, Title := r.Title, Description := r.Description,
    Status := r.Status, Deadline := r.Deadline,
    Project := ((firstProject db r.ProjectID).map (preloadUser db)).getD Project.zero }

/-- Statement `DB.Create(&project)`: an insert, refused when the primary key is taken. -/
def createProjectRow (db : Store) (r : ProjectRow) : Option Store :=
  if db.projects.any (fun x => x.ID == r.ID) then none
  else some { db with projects := db.projects ++ [r] }

/-- Statement `DB.Create(&task)`: an insert, refused when the primary key is taken. -/
def createTaskRow (db : Store) (r : TaskRow) : Option Store :=
  if db.tasks.any (fun x => x.ID == r.ID) then none
  else some { db with tasks := db.tasks ++ [r] }

/-- Columns set by `Updates(u)` for a `models.Project` value `u`: exactly the fields of `u`
that are not their zero value. -/
def ProjectRow.assign (u r : ProjectRow) : ProjectRow :=
  { ID := if u.ID = 0 then r.ID else u.ID,
    Name := if u.Name = "" then r.Name else u.Name,
    Description := if u.Description = "" then r.Description else u.Description,
    CreatedByID := if u.CreatedByID = 0 then r.CreatedByID else u.CreatedByID }

/-- Columns set by `Updates(u)` for a `models.Task` value `u`: exactly the fields of `u`
that are not their zero value.  The primary key is one of them when `u` is passed by value
and is not the model itself. -/
def TaskRow.assign (u r : TaskRow) : TaskRow :=
  { ID := if u.ID = 0 then r.ID else u.ID,
    ProjectID := if u.ProjectID = 0 then r.ProjectID else u.ProjectID,
    Title := if u.Title = "" then r.Title else u.Title,
    Description := if u.Description = "" then r.Description else u.Description,
    Status := if u.Status = "" then r.Status else u.Status,
    Deadline := match u.Deadline with
      | none => r.Deadline
      | some t => some t }

/-- Statement `DB.Model(&project).Updates(u)`: `UPDATE projects SET .. WHERE id = id`. -/
def updatesProject (db : Store) (id : UUID) (u : ProjectRow) : Store :=
  { db with projects := db.projects.map (fun r => if r.ID = id then u.assign r else r) }

/-- Reading a row of `tasks` with `First(&task, ..)` into a `task` that already holds
values: every column read is stored in its field, except that a NULL `deadline` leaves the
pointer field as it was. -/
def TaskRow.scanInto (task row : TaskRow) : TaskRow :=
  { row with Deadline := match row.Deadline with
      | some d => some d
      | none => task.Deadline }

/-- The table `tasks` after `UPDATE tasks SET .. WHERE id = id` with the non-zero fields
of `u`. -/
def setTasks (db : Store) (id : UUID) (u : TaskRow) : Store :=
  { db with tasks := db.tasks.map (fun r => if r.ID = id then u.assign r else r) }

/-- Statement `DB.Model(&task).Updates(u)`: `UPDATE tasks SET .. WHERE id = id`, refused
when it would give a matched row the primary key of a row it does not match. -/
def updatesTask (db : Store) (id : UUID) (u : TaskRow) : Option Store :=
  if u.ID ≠ 0 ∧ db.tasks.any (fun r => r.ID == id) ∧
      db.tasks.any (fun r => r.ID != id && r.ID == u.ID) then none
  else some (setTasks db id u)

/-- Statement `DB.Where("project_id = ?", projectID).Delete(&models.Task{})`. -/
def deleteTasksOfProject (db : Store) (projectID : UUID) : Store :=
  { db with tasks := db.tasks.filter (fun r => r.ProjectID != projectID) }

/-- Statement `DB.Delete(&project)`: `DELETE FROM projects WHERE id = id`. -/
def deleteProjectRow (db : Store) (id : UUID) : Store :=
  { db with projects := db.projects.filter (fun r => r.ID != id) }

/-- Statement `DB.Delete(&task)`: `DELETE FROM tasks WHERE id = id`. -/
def deleteTaskRow (db : Store) (id : UUID) : Store :=
  { db with tasks := db.tasks.filter (fun r => r.ID != id) }

/-! ## requests and responses -/

/-- What `c.Get("userID")` holds: nothing, a `uuid.UUID`, or a value of another type. -/
inductive CtxUser where
  | missing
  | uuid (u : UUID)
  | otherType
  deriving DecidableEq, Repr

/-- Why `c.ShouldBindJSON` returned an error (the text of `err.Error()` is the library's). -/
inductive BindError where
  | decode
  | date
  | validation
  deriving DecidableEq, Repr

/-- The value handed to `c.JSON`. -/
inductive Body where
  | empty
  | error (msg : String)
  | bindError (e : BindError)
  | message (msg : String)
  | project (msg : String) (p : Project)
  | projects (msg : String) (ps : List Project)
  | task (msg : String) (t : Task)
  | tasks (msg : String) (ts : List Task)
  deriving DecidableEq, Repr

/-- Status code and body of the answer. -/
structure Response where
  status : Nat
  body : Body
  deriving DecidableEq, Repr

/-- Function `utils.GetUserIDFromContext`: the caller id, or the answer already written. -/
def GetUserIDFromContext (c : CtxUser) : Except Response UUID :=
  match c with
  | .missing => .error ⟨401, .error "User not authenticated"⟩
  | .otherType => .error ⟨500, .error "Invalid userID type in context"⟩
  | .uuid id => .ok id

/-! ## usecase/project_usecase.go -/

/-- Struct `InputProject` as decoded from the request body. -/
structure InputProject where
  Name : String
  Description : String
  CreatedByID : UUID
  deriving DecidableEq, Repr

/-- The anonymous input struct of `UpdateProject` as decoded from the request body. -/
structure UpdateProjectInput where
  Name : String
  Description : String
  deriving DecidableEq, Repr

/-- Handler `CreateProject`.  `body` is `none` when the body does not decode into
`InputProject`; `newID` is the value of `uuid.New()`. -/
def CreateProject (db : Store) (body : Option InputProject) (newID : UUID) : Response × Store :=
  match body with
  | none => (⟨400, .bindError .decode⟩, db)
  | some input =>
    -- binding:"required" on Name and on CreatedByID
    if input.Name = "" ∨ input.CreatedByID = 0 then (⟨400, .bindError .validation⟩, db)
    else
      match firstUser db input.CreatedByID with
      | none =>
        (⟨400, .error "Provided created_by ID does not correspond to a valid user"⟩, db)
      | some _ =>
        let project : ProjectRow :=
          { ID := newID, Name := input.Name, Description := input.Description,
            CreatedByID := input.CreatedByID }
        match createProjectRow db project with
        | none => (⟨500, .error "Failed to create project"⟩, db)
        | some db1 =>
          match firstProject db1 project.ID with
          | none => (⟨500, .error "Failed to preload user for project response"⟩, db1)
          | some row =>
            (⟨201, .project "Project created successfully" (preloadUser db1 row)⟩, db1)

/-- Handler `GetProjects`. -/
def GetProjects (db : Store) (c : CtxUser) : Response × Store :=
  match GetUserIDFromContext c with
  | .error r => (r, db)
  | .ok userID =>
    let projects := db.projects.filter (fun r => r.CreatedByID == userID)
    (⟨200, .projects "Projects retrieved successfully" (projects.map (preloadUser db))⟩, db)

/-- Handler `GetProjectByID`.  `id` is the outcome of `uuid.Parse(c.Param("id"))`. -/
def GetProjectByID (db : Store) (id : Option UUID) (c : CtxUser) : Response × Store :=
  match id with
  | none => (⟨400, .error "Invalid project ID format"⟩, db)
  | some projectID =>
    match GetUserIDFromContext c with
    | .error r => (r, db)
    | .ok userID =>
      match firstOwnedProject db projectID userID with
      | none => (⟨404, .error "Project not found or you don\x27t have access"⟩, db)
      | some project =>
        (⟨200, .project "Project retrieved successfully" (preloadUser db project)⟩, db)

/-- Handler `UpdateProject`.  `body` is `none` when the body does not decode. -/
def UpdateProject (db : Store) (id : Option UUID) (c : CtxUser)
    (body : Option UpdateProjectInput) : Response × Store :=
  match id with
  | none => (⟨400, .error "Invalid project ID format"⟩, db)
  | some projectID =>
    match GetUserIDFromContext c with
    | .error r => (r, db)
    | .ok userID =>
      match body with
      | none => (⟨400, .bindError .decode⟩, db)
      | some input =>
        match firstOwnedProject db projectID userID with
        | none => (⟨404, .error "Project not found or you don\x27t have access"⟩, db)
        | some project =>
          let updates : ProjectRow :=
            { ID := 0, Name := input.Name, Description := input.Description, CreatedByID := 0 }
          let db1 := updatesProject db project.ID updates
          let project := updates.assign project
          match firstProject db1 project.ID with
          | none => (⟨500, .error "Failed to preload user after project update"⟩, db1)
          | some row =>
            (⟨200, .project "Project updated successfully" (preloadUser db1 row)⟩, db1)

/-- Handler `DeleteProject`. -/
def DeleteProject (db : Store) (id : Option UUID) (c : CtxUser) : Response × Store :=
  match id with
  | none => (⟨400, .error "Invalid project ID format"⟩, db)
  | some projectID =>
    match GetUserIDFromContext c with
    | .error r => (r, db)
    | .ok userID =>
      match firstOwnedProject db projectID userID with
      | none => (⟨404, .error "Project not found or you don\x27t have access"⟩, db)
      | some project =>
        let db1 := deleteTasksOfProject db projectID
        let db2 := deleteProjectRow db1 project.ID
        (⟨200, .message "Project deleted successfully"⟩, db2)

/-! ## usecase/task_usecase.go: dates -/

/-- Function `isDigit` of package `time`: byte `i` of `s` exists and is a decimal digit. -/
def isDigit (s : List Nat) (i : Nat) : Bool :=
  match s.get? i with
  | none => false
  | some c => decide (48 ≤ c) && decide (c ≤ 57)

/-- Function `getnum` of package `time`: a one- or two-digit number (two digits when
`fixed`) and the rest of the input. -/
def getnum (s : List Nat) (fixed : Bool) : Option (Nat × List Nat) :=
  if !isDigit s 0 then none
  else if !isDigit s 1 then
    if fixed then none else some (s.getD 0 0 - 48, s.drop 1)
  else some ((s.getD 0 0 - 48) * 10 + (s.getD 1 0 - 48), s.drop 2)

/-- Function `atoi` of package `time` on an input whose first byte is a digit (its sign
branch is not reached from the year field): the value when every byte is a digit. -/
def atoi (s : List Nat) : Option Nat :=
  if s.all (fun c => decide (48 ≤ c) && decide (c ≤ 57)) then
    some (s.foldl (fun acc c => acc * 10 + (c - 48)) 0)
  else none

/-- Function `skip` of package `time` for the literal `-` of the layout. -/
def skipDash (value : List Nat) : Option (List Nat) :=
  match value with
  | 45 :: rest => some rest
  | _ => none

/-- Function `isLeap` of package `time`. -/
def isLeap (year : Nat) : Bool :=
  year % 4 == 0 && (year % 100 != 0 || year % 400 == 0)

/-- Function `daysIn` of package `time`. -/
def daysIn (m year : Nat) : Nat :=
  if m = 2 ∧ isLeap year then 29
  else match m with
    | 1 => 31 | 2 => 28 | 3 => 31 | 4 => 30 | 5 => 31 | 6 => 30
    | 7 => 31 | 8 => 31 | 9 => 30 | 10 => 31 | 11 => 30 | 12 => 31
    | _ => 0

/-- Call `time.Parse(dateLayout, s)` with `dateLayout = "2006-01-02"`: the chunks of the
layout are a four-digit year, `-`, a two-digit month, `-`, a two-digit day, then nothing;
the day is checked against the month at the end.  `none` is a non-nil error. -/
def timeParse (value : List Nat) : Option Time :=
  if value.length < 4 || !isDigit value 0 then none
  else
    match atoi (value.take 4) with
    | none => none
    | some year =>
      match skipDash (value.drop 4) with
      | none => none
      | some value =>
        match getnum value true with
        | none => none
        | some (month, value) =>
          if month ≤ 0 ∨ 12 < month then none
          else
            match skipDash value with
            | none => none
            | some value =>
              match getnum value true with
              | none => none
              | some (day, value) =>
                if value.length ≠ 0 then none
                else if day < 1 ∨ day > daysIn month year then none
                else some ⟨year, month, day, 0, 0, 0, 0⟩

/-- Outcome of a Go call that may return a value, return an error, or panic. -/
inductive Outcome (ε α : Type) where
  | ok (a : α)
  | err (e : ε)
  | panicked
  deriving DecidableEq, Repr

/-- Method `(*CustomDate).UnmarshalJSON`.  The slice expression `s[1 : len(s)-1]` panics
when `len(s) < 2`. -/
def CustomDate.UnmarshalJSON (b : List Nat) : Outcome Unit Time :=
  if b.length < 2 then .panicked
  else
    let s := (b.drop 1).take (b.length - 2)
    match timeParse s with
    | none => .err ()
    | some t => .ok t

/-- Bytes of an ASCII string literal. -/
def ascii (s : String) : List Nat := s.toList.map Char.toNat

/-! ## usecase/task_usecase.go: handlers -/

/-- A request body that is a JSON object: the string members `title`, `description`,
`status` (the empty string when absent, null or not a JSON string), the raw bytes of the
`deadline` member when it is present and not `null`, and whether one of the three string
members holds a JSON value that is not a string.  For such a member `encoding/json` records
an `UnmarshalTypeError`, leaves the field at its zero value and goes on decoding the other
members; the recorded error is returned when the object has been read. -/
structure RawInputTask where
  title : String
  description : String
  status : String
  deadline : Option (List Nat)
  typeError : Bool
  deriving DecidableEq, Repr

/-- Struct `InputTask`. -/
structure InputTask where
  Title : String
  Description : String
  Status : TaskStatus
  Deadline : Option Time
  deriving DecidableEq, Repr

/-- The validator tags of `InputTask`: `required` on `Title`, `required,oneof=todo
in_progress done` on `Status`. -/
def InputTask.validate (i : InputTask) : Bool :=
  i.Title != "" && i.Status != "" && (i.Status == "todo" || i.Status == "in_progress" ||
    i.Status == "done")

/-- Call `c.ShouldBindJSON(&input)` for `InputTask`: decoding, then validation.  `body`
is `none` when the body is not a JSON object (malformed JSON, or a value of another kind):
the decoder then returns an error without decoding any member.  For an object, decoding
calls `UnmarshalJSON` on a present, non-null deadline, whether or not another member is of
a wrong type: a panic there ends the call, an error there is returned at once, and
otherwise a recorded type error is returned; validation runs only after a decoding without
error. -/
def bindInputTask (body : Option RawInputTask) : Outcome BindError InputTask :=
  match body with
  | none => .err .decode
  | some raw =>
    let finish (d : Option Time) : Outcome BindError InputTask :=
      if raw.typeError then .err .decode
      else
        let input : InputTask :=
          { Title := raw.title, Description := raw.description, Status := raw.status,
            Deadline := d }
        if input.validate then .ok input else .err .validation
    match raw.deadline with
    | none => finish none
    | some b =>
      match CustomDate.UnmarshalJSON b with
      | .panicked => .panicked
      | .err _ => .err .date
      | .ok t => finish (some t)

/-- The answer to a failed `c.ShouldBindJSON`: 400 with the error text, or the 500 of the
recovery middleware when decoding panicked. -/
def bindFailure (e : Option BindError) : Response :=
  match e with
  | some e => ⟨400, .bindError e⟩
  | none => ⟨500, .empty⟩

/-- Handler `CreateTask`.  `newID` is the value of `uuid.New()`. -/
def CreateTask (db : Store) (pid : Option UUID) (c : CtxUser) (body : Option RawInputTask)
    (newID : UUID) : Response × Store :=
  match pid with
  | none => (⟨400, .error "Invalid project ID format"⟩, db)
  | some projectID =>
    match GetUserIDFromContext c with
    | .error r => (r, db)
    | .ok userID =>
      match firstOwnedProject db projectID userID with
      | none =>
        (⟨404, .error "Project not found or you don\x27t have access to this project"⟩, db)
      | some _ =>
        match bindInputTask body with
        | .panicked => (bindFailure none, db)
        | .err e => (bindFailure (some e), db)
        | .ok input =>
          let task : TaskRow :=
            { ID := newID, ProjectID := projectID, Title := input.Title,
              Description := input.Description, Status := input.Status, Deadline := none }
          let task : TaskRow :=
            match input.Deadline with
            | some t => { task with Deadline := some t }
            | none => task
          match createTaskRow db task with
          | none => (⟨500, .error "Failed to create task"⟩, db)
          | some db1 =>
            match firstTask db1 task.ID with
            | none => (⟨500, .error "Failed to preload project/user for task response"⟩, db1)
            | some row =>
              (⟨201, .task "Task created successfully" (preloadProjectUser db1 row)⟩, db1)

/-- Handler `GetTasksByProject`. -/
def GetTasksByProject (db : Store) (pid : Option UUID) (c : CtxUser) : Response × Store :=
  match pid with
  | none => (⟨400, .error "Invalid project ID format"⟩, db)
  | some projectID =>
    match GetUserIDFromContext c with
    | .error r => (r, db)
    | .ok userID =>
      match firstOwnedProject db projectID userID with
      | none =>
        (⟨404, .error "Project not found or you don\x27t have access to this project"⟩, db)
      | some _ =>
        let tasks := db.tasks.filter (fun r => r.ProjectID == projectID)
        (⟨200, .tasks "Tasks retrieved successfully" (tasks.map (preloadProjectUser db))⟩, db)

/-- Handler `GetTaskByID`. -/
def GetTaskByID (db : Store) (pid tid : Option UUID) (c : CtxUser) : Response × Store :=
  match pid with
  | none => (⟨400, .error "Invalid project ID format"⟩, db)
  | some projectID =>
    match tid with
    | none => (⟨400, .error "Invalid task ID format"⟩, db)
    | some taskID =>
      match GetUserIDFromContext c with
      | .error r => (r, db)
      | .ok userID =>
        match firstOwnedProject db projectID userID with
        | none =>
          (⟨404, .error "Project not found or you don\x27t have access to this project"⟩, db)
        | some _ =>
          match firstTaskIn db taskID projectID with
          | none =>
            (⟨404, .error "Task not found in this project or you don\x27t have access"⟩, db)
          | some task =>
            (⟨200, .task "Task retrieved successfully" (preloadProjectUser db task)⟩, db)

/-- Handler `UpdateTask`.  `newID` is the value of `uuid.New()` placed in `updates.ID`. -/
def UpdateTask (db : Store) (pid tid : Option UUID) (c : CtxUser) (body : Option RawInputTask)
    (newID : UUID) : Response × Store :=
  match pid with
  | none => (⟨400, .error "Invalid project ID format"⟩, db)
  | some projectID =>
    match tid with
    | none => (⟨400, .error "Invalid task ID format"⟩, db)
    | some taskID =>
      match GetUserIDFromContext c with
      | .error r => (r, db)
      | .ok userID =>
        match firstOwnedProject db projectID userID with
        | none =>
          (⟨404, .error "Project not found or you don\x27t have access to this project"⟩, db)
        | some _ =>
          match bindInputTask body with
          | .panicked => (bindFailure none, db)
          | .err e => (bindFailure (some e), db)
          | .ok input =>
            match firstTaskIn db taskID projectID with
            | none =>
              (⟨404, .error "Task not found in this project or you don\x27t have access"⟩, db)
            | some task =>
              let updates : TaskRow :=
                { ID := newID, ProjectID := projectID, Title := input.Title,
                  Description := input.Description, Status := input.Status, Deadline := none }
              -- the deadline is stored in the loaded `task`, not in `updates`
              let task : TaskRow :=
                match input.Deadline with
                | some t => { task with Deadline := some t }
                | none => task
              match updatesTask db task.ID updates with
              | none => (⟨500, .error "Failed to update task"⟩, db)
              | some db1 =>
                let task := updates.assign task
                -- the row is read back into the same `task`
                match firstTask db1 task.ID with
                | none =>
                  (⟨500, .error "Failed to preload project/user after task update"⟩, db1)
                | some row =>
                  (⟨200, .task "Task updated successfully"
                    (preloadProjectUser db1 (task.scanInto row))⟩, db1)

/-- Handler `DeleteTask`. -/
def DeleteTask (db : Store) (pid tid : Option UUID) (c : CtxUser) : Response × Store :=
  match pid with
  | none => (⟨400, .error "Invalid project ID format"⟩, db)
  | some projectID =>
    match tid with
    | none => (⟨400, .error "Invalid task ID format"⟩, db)
    | some taskID =>
      match GetUserIDFromContext c with
      | .error r => (r, db)
      | .ok userID =>
        match firstOwnedProject db projectID userID with
        | none =>
          (⟨404, .error "Project not found or you don\x27t have access to this project"⟩, db)
        | some _ =>
          match firstTaskIn db taskID projectID with
          | none =>
            (⟨404, .error "Task not found in this project or you don\x27t have access"⟩, db)
          | some task =>
            (⟨200, .message "Task deleted successfully"⟩, deleteTaskRow db task.ID)

/-! ## sample data -/

/-- Two users. -/
def sampleUsers : List User :=
  [⟨1, "ann", "ann@example.org", "h1"⟩, ⟨2, "bob", "bob@example.org", "h2"⟩]

/-- A store: user 1 owns projects 10 and 11, user 2 owns project 20; task 100 is under
project 10, task 110 under project 11, task 200 under project 20. -/
def sampleStore : Store :=
  { users := sampleUsers,
    projects := [⟨10, "alpha", "x", 1⟩, ⟨11, "beta", "y", 1⟩, ⟨20, "gamma", "z", 2⟩],
    tasks := [⟨100, 10, "t100", "old", "todo", some ⟨2024, 1, 31, 0, 0, 0, 0⟩⟩,
              ⟨110, 11, "t110", "", "done", none⟩,
              ⟨200, 20, "t200", "", "todo", none⟩] }

/-- A store with users but no project and no task. -/
def emptyStore : Store := { users := sampleUsers, projects := [], tasks := [] }

/-! ## what the specification calls valid input -/

/-- A calendar date with a four-digit year: month 1 to 12, day 1 to the length of the month. -/
def ValidDate (y m d : Nat) : Prop :=
  y ≤ 9999 ∧ 1 ≤ m ∧ m ≤ 12 ∧ 1 ≤ d ∧ d ≤ daysIn m y

instance (y m d : Nat) : Decidable (ValidDate y m d) := by
  unfold ValidDate; infer_instance

/-- The text `YYYY-MM-DD` of a date, as bytes (what `Format(dateLayout)` writes). -/
def formatDate (y m d : Nat) : List Nat :=
  [48 + y / 1000 % 10, 48 + y / 100 % 10, 48 + y / 10 % 10, 48 + y % 10, 45,
   48 + m / 10 % 10, 48 + m % 10, 45, 48 + d / 10 % 10, 48 + d % 10]

/-- A JSON string literal without escapes: the text between two double quotes. -/
def quoted (s : List Nat) : List Nat := 34 :: (s ++ [34])

/-- The date `y-m-d` at 00:00:00 UTC. -/
def midnightUTC (y m d : Nat) : Time := ⟨y, m, d, 0, 0, 0, 0⟩

/-- The deadline member of a body is absent (or null), or is the JSON string of a calendar
date written `YYYY-MM-DD`. -/
def ValidDeadline (dl : Option (List Nat)) : Prop :=
  dl = none ∨ ∃ y m d, ValidDate y m d ∧ dl = some (quoted (formatDate y m d))

/-- A create/update task body the specification calls valid: a title, a status among
`todo`, `in_progress`, `done`, a valid deadline, and no member of a wrong JSON type. -/
def ValidTaskBody (raw : RawInputTask) : Prop :=
  raw.title ≠ "" ∧ (raw.status = "todo" ∨ raw.status = "in_progress" ∨ raw.status = "done") ∧
    ValidDeadline raw.deadline ∧ raw.typeError = false

/-- No task row of the store has primary key `id`: `uuid.New()` returned a fresh value. -/
def FreshTaskID (db : Store) (id : UUID) : Prop :=
  ∀ r ∈ db.tasks, r.ID ≠ id

instance (db : Store) (id : UUID) : Decidable (FreshTaskID db id) := by
  unfold FreshTaskID; infer_instance

/-- No project row of the store has primary key `id`: `uuid.New()` returned a fresh value. -/
def FreshProjectID (db : Store) (id : UUID) : Prop :=
  ∀ r ∈ db.projects, r.ID ≠ id

instance (db : Store) (id : UUID) : Decidable (FreshProjectID db id) := by
  unfold FreshProjectID; infer_instance

/-! ## ownership -/

/-- The store holds a project with id `p` whose `created_by_id` is `u`. -/
def Owns (db : Store) (u p : UUID) : Prop :=
  ∃ r ∈ db.projects, r.ID = p ∧ r.CreatedByID = u

instance (db : Store) (u p : UUID) : Decidable (Owns db u p) := by
  unfold Owns; infer_instance

/-- The store holds a task with id `t` whose `project_id` is `p`. -/
def HasTask (db : Store) (p t : UUID) : Prop :=
  ∃ r ∈ db.tasks, r.ID = t ∧ r.ProjectID = p

instance (db : Store) (p t : UUID) : Decidable (HasTask db p t) := by
  unfold HasTask; infer_instance

/-- Referential integrity of the store: the `project_id` of every task is the id of a
project, and the `created_by_id` of every project is the id of a user. -/
def RefIntegrity (db : Store) : Prop :=
  (∀ t ∈ db.tasks, ∃ p ∈ db.projects, p.ID = t.ProjectID) ∧
  (∀ p ∈ db.projects, ∃ u ∈ db.users, u.ID = p.CreatedByID)

instance (db : Store) : Decidable (RefIntegrity db) := by
  unfold RefIntegrity; infer_instance

/-- One request to a handler registered by `routes.ProjectRoutes` or `routes.TaskRoutes`,
with everything the handler reads from it. -/
inductive Request where
  | createProject (body : Option InputProject) (newID : UUID)
  | getProjects (c : CtxUser)
  | getProjectByID (id : Option UUID) (c : CtxUser)
  | updateProject (id : Option UUID) (c : CtxUser) (body : Option UpdateProjectInput)
  | deleteProject (id : Option UUID) (c : CtxUser)
  | createTask (pid : Option UUID) (c : CtxUser) (body : Option RawInputTask) (newID : UUID)
  | getTasksByProject (pid : Option UUID) (c : CtxUser)
  | getTaskByID (pid tid : Option UUID) (c : CtxUser)
  | updateTask (pid tid : Option UUID) (c : CtxUser) (body : Option RawInputTask)
      (newID : UUID)
  | deleteTask (pid tid : Option UUID) (c : CtxUser)

/-- The handler that the routes of `routes/project_routes.go` and `routes/task_routes.go`
run for a request. -/
def serve (db : Store) : Request → Response × Store
  | .createProject body newID => CreateProject db body newID
  | .getProjects c => GetProjects db c
  | .getProjectByID id c => GetProjectByID db id c
  | .updateProject id c body => UpdateProject db id c body
  | .deleteProject id c => DeleteProject db id c
  | .createTask pid c body newID => CreateTask db pid c body newID
  | .getTasksByProject pid c => GetTasksByProject db pid c
  | .getTaskByID pid tid c => GetTaskByID db pid tid c
  | .updateTask pid tid c body newID => UpdateTask db pid tid c body newID
  | .deleteTask pid tid c => DeleteTask db pid tid c

theorem firstOwnedProject_eq_none {db : Store} {p u : UUID} :
    firstOwnedProject db p u = none ↔ ¬ Owns db u p := by
  simp [firstOwnedProject, Owns]

theorem firstOwnedProject_eq_some {db : Store} {p u : UUID} {r : ProjectRow}
    (h : firstOwnedProject db p u = some r) :
    r ∈ db.projects ∧ r.ID = p ∧ r.CreatedByID = u := by
  unfold firstOwnedProject at h
  have h1 := List.find?_some h
  have h2 := List.mem_of_find?_eq_some h
  simp at h1
  exact ⟨h2, h1.1, h1.2⟩

theorem owns_of_firstOwnedProject {db : Store} {p u : UUID} {r : ProjectRow}
    (h : firstOwnedProject db p u = some r) : Owns db u p :=
  ⟨r, firstOwnedProject_eq_some h⟩

theorem firstOwnedProject_of_owns {db : Store} {p u : UUID} (h : Owns db u p) :
    ∃ r, firstOwnedProject db p u = some r := by
  cases hf : firstOwnedProject db p u with
  | none => exact absurd h (firstOwnedProject_eq_none.1 hf)
  | some r => exact ⟨r, rfl⟩

theorem firstProject_updatesProject_ne_none {db : Store} {r : ProjectRow} {n d : String}
    (hr : r ∈ db.projects) :
    firstProject (updatesProject db r.ID ⟨0, n, d, 0⟩) r.ID ≠ none := by
  intro h
  simp only [firstProject, updatesProject, List.find?_eq_none, List.mem_map] at h
  have := h (if r.ID = r.ID then ProjectRow.assign ⟨0, n, d, 0⟩ r else r) ⟨r, hr, rfl⟩
  simp [ProjectRow.assign] at this

theorem GetProjectByID_spec (db : Store) (u p : UUID) :
    ((GetProjectByID db (some p) (.uuid u)).1.status = 200 ↔ Owns db u p) ∧
    ((GetProjectByID db (some p) (.uuid u)).1.status = 200 ∨
      ((GetProjectByID db (some p) (.uuid u)).1.status = 404 ∧
        (GetProjectByID db (some p) (.uuid u)).2 = db)) := by
  cases hf : firstOwnedProject db p u with
  | none =>
    have := firstOwnedProject_eq_none.1 hf
    simp [GetProjectByID, GetUserIDFromContext, hf, this]
  | some r =>
    have := owns_of_firstOwnedProject hf
    simp [GetProjectByID, GetUserIDFromContext, hf, this]

theorem UpdateProject_spec (db : Store) (u p : UUID) (body : UpdateProjectInput) :
    ((UpdateProject db (some p) (.uuid u) (some body)).1.status = 200 ↔ Owns db u p) ∧
    ((UpdateProject db (some p) (.uuid u) (some body)).1.status = 200 ∨
      ((UpdateProject db (some p) (.uuid u) (some body)).1.status = 404 ∧
        (UpdateProject db (some p) (.uuid u) (some body)).2 = db)) := by
  cases hf : firstOwnedProject db p u with
  | none =>
    have := firstOwnedProject_eq_none.1 hf
    simp [UpdateProject, GetUserIDFromContext, hf, this]
  | some r =>
    have ho := owns_of_firstOwnedProject hf
    have hr := (firstOwnedProject_eq_some hf).1
    have hid : (ProjectRow.assign ⟨0, body.Name, body.Description, 0⟩ r).ID = r.ID := by
      simp [ProjectRow.assign]
    cases hg : firstProject (updatesProject db r.ID ⟨0, body.Name, body.Description, 0⟩) r.ID with
    | none => exact absurd hg (firstProject_updatesProject_ne_none hr)
    | some row => simp [UpdateProject, GetUserIDFromContext, hf, ho, hid, hg]

theorem DeleteProject_spec (db : Store) (u p : UUID) :
    ((DeleteProject db (some p) (.uuid u)).1.status = 200 ↔ Owns db u p) ∧
    ((DeleteProject db (some p) (.uuid u)).1.status = 200 ∨
      ((DeleteProject db (some p) (.uuid u)).1.status = 404 ∧
        (DeleteProject db (some p) (.uuid u)).2 = db)) := by
  cases hf : firstOwnedProject db p u with
  | none =>
    have := firstOwnedProject_eq_none.1 hf
    simp [DeleteProject, GetUserIDFromContext, hf, this]
  | some r =>
    have := owns_of_firstOwnedProject hf
    simp [DeleteProject, GetUserIDFromContext, hf, this]

/-- C1: for every store, caller `u`, well-formed project id `p` and well-formed update body,
each of `GetProjectByID`, `UpdateProject` and `DeleteProject` answers 200 exactly when the
store holds a project with id `p` created by `u`, and otherwise answers 404 and returns the
store (users, projects and tasks) unchanged. -/
theorem C1_project_detail_iff_owner (db : Store) (u p : UUID) (body : UpdateProjectInput) :
    (((GetProjectByID db (some p) (.uuid u)).1.status = 200 ↔ Owns db u p) ∧
      ((GetProjectByID db (some p) (.uuid u)).1.status = 200 ∨
        ((GetProjectByID db (some p) (.uuid u)).1.status = 404 ∧
          (GetProjectByID db (some p) (.uuid u)).2 = db))) ∧
    (((UpdateProject db (some p) (.uuid u) (some body)).1.status = 200 ↔ Owns db u p) ∧
      ((UpdateProject db (some p) (.uuid u) (some body)).1.status = 200 ∨
        ((UpdateProject db (some p) (.uuid u) (some body)).1.status = 404 ∧
          (UpdateProject db (some p) (.uuid u) (some body)).2 = db))) ∧
    (((DeleteProject db (some p) (.uuid u)).1.status = 200 ↔ Owns db u p) ∧
      ((DeleteProject db (some p) (.uuid u)).1.status = 200 ∨
        ((DeleteProject db (some p) (.uuid u)).1.status = 404 ∧
          (DeleteProject db (some p) (.uuid u)).2 = db))) :=
  ⟨GetProjectByID_spec db u p, UpdateProject_spec db u p body, DeleteProject_spec db u p⟩

/-! ## dates -/

theorem atoi_digits {a b c e : Nat} (ha : a ≤ 9) (hb : b ≤ 9) (hc : c ≤ 9) (he : e ≤ 9) :
    atoi [48 + a, 48 + b, 48 + c, 48 + e] = some (a * 1000 + b * 100 + c * 10 + e) := by
  have h : (48 + a ≤ 57 ∧ 48 + b ≤ 57 ∧ 48 + c ≤ 57 ∧ 48 + e ≤ 57) := by omega
  simp [atoi, h]
  ring

theorem getnum_digits {a b : Nat} (rest : List Nat) (ha : a ≤ 9) (hb : b ≤ 9) :
    getnum ((48 + a) :: (48 + b) :: rest) true = some (a * 10 + b, rest) := by
  have h1 : ¬ 57 < 48 + a := by omega
  have h2 : ¬ 57 < 48 + b := by omega
  simp [getnum, isDigit, h1, h2]

theorem timeParse_formatDate {y m d : Nat} (h : ValidDate y m d) :
    timeParse (formatDate y m d) = some (midnightUTC y m d) := by
  obtain ⟨hy, hm1, hm2, hd1, hd2⟩ := h
  have hd3 : d ≤ 31 := by
    refine le_trans hd2 ?_
    unfold daysIn
    split
    · omega
    · split <;> omega
  have e1 : y / 1000 % 10 * 1000 + y / 100 % 10 * 100 + y / 10 % 10 * 10 + y % 10 = y := by omega
  have e2 : m / 10 % 10 * 10 + m % 10 = m := by omega
  have e3 : d / 10 % 10 * 10 + d % 10 = d := by omega
  have hy0 : isDigit (formatDate y m d) 0 = true := by
    have : 48 + y / 1000 % 10 ≤ 57 := by omega
    simp [isDigit, formatDate, this]
  have hlen : ¬ (formatDate y m d).length < 4 := by simp [formatDate]
  have hatoi : atoi ((formatDate y m d).take 4) = some y := by
    have := @atoi_digits (y / 1000 % 10) (y / 100 % 10) (y / 10 % 10) (y % 10)
      (by omega) (by omega) (by omega) (by omega)
    rw [e1] at this
    simpa [formatDate] using this
  have hdrop : (formatDate y m d).drop 4 =
      45 :: (48 + m / 10 % 10) :: (48 + m % 10) :: 45 :: (48 + d / 10 % 10) :: (48 + d % 10) :: [] := by
    simp [formatDate]
  have hmon := @getnum_digits (m / 10 % 10) (m % 10)
    (45 :: (48 + d / 10 % 10) :: (48 + d % 10) :: []) (by omega) (by omega)
  have hday := @getnum_digits (d / 10 % 10) (d % 10) [] (by omega) (by omega)
  rw [e2] at hmon
  rw [e3] at hday
  have hm3 : ¬ (m ≤ 0 ∨ 12 < m) := by omega
  have hd4 : ¬ (d < 1 ∨ d > daysIn m y) := by omega
  unfold timeParse
  simp only [hlen, hy0, hatoi, hdrop, skipDash, hmon, hday, hm3, hd4]
  simp [midnightUTC]

theorem getnum_fixed_eq_some {v r : List Nat} {n : Nat} (h : getnum v true = some (n, r)) :
    ∃ a b, a ≤ 9 ∧ b ≤ 9 ∧ v = (48 + a) :: (48 + b) :: r ∧ n = a * 10 + b := by
  rcases v with _ | ⟨x, _ | ⟨y, rest⟩⟩
  · simp [getnum, isDigit] at h
  · simp [getnum, isDigit] at h
  · simp [getnum, isDigit] at h
    obtain ⟨⟨hx1, hx2⟩, ⟨hy1, hy2⟩, hn, hr⟩ := h
    refine ⟨x - 48, y - 48, by omega, by omega, ?_, hn.symm⟩
    rw [hr]
    congr 1
    · omega
    · congr 1
      omega

theorem skipDash_eq_some {v r : List Nat} (h : skipDash v = some r) : v = 45 :: r := by
  unfold skipDash at h
  split at h
  · simp at h; rw [h]
  · simp at h

theorem atoi_four_eq_some {a b c e y : Nat} (h : atoi [a, b, c, e] = some y) :
    (48 ≤ a ∧ a ≤ 57) ∧ (48 ≤ b ∧ b ≤ 57) ∧ (48 ≤ c ∧ c ≤ 57) ∧ (48 ≤ e ∧ e ≤ 57) ∧
      y = (a - 48) * 1000 + (b - 48) * 100 + (c - 48) * 10 + (e - 48) := by
  simp [atoi] at h
  obtain ⟨⟨ha, hb, hc, he⟩, hy⟩ := h
  refine ⟨ha, hb, hc, he, ?_⟩
  rw [← hy]
  ring

theorem timeParse_eq_some {s : List Nat} {t : Time} (h : timeParse s = some t) :
    ∃ y m d, ValidDate y m d ∧ s = formatDate y m d ∧ t = midnightUTC y m d := by
  rcases s with _ | ⟨a, _ | ⟨b, _ | ⟨c, _ | ⟨e, rest⟩⟩⟩⟩
  · simp [timeParse] at h
  · simp [timeParse] at h
  · simp [timeParse] at h
  · simp [timeParse] at h
  · unfold timeParse at h
    split at h
    · simp at h
    · simp only [List.take, List.drop] at h
      cases hy : atoi [a, b, c, e] with
      | none => simp [hy] at h
      | some y =>
        obtain ⟨ha, hb, hc, he, hyv⟩ := atoi_four_eq_some hy
        simp only [hy] at h
        cases h1 : skipDash rest with
        | none => simp [h1] at h
        | some v1 =>
          have e1 := skipDash_eq_some h1
          simp only [h1] at h
          cases h2 : getnum v1 true with
          | none => simp [h2] at h
          | some mv =>
            obtain ⟨m, v2⟩ := mv
            obtain ⟨m1, m2, hm1, hm2, e2, hmv⟩ := getnum_fixed_eq_some h2
            simp only [h2] at h
            by_cases hmr : m ≤ 0 ∨ 12 < m
            · rw [if_pos hmr] at h
              simp at h
            · rw [if_neg hmr] at h
              cases h3 : skipDash v2 with
              | none => simp [h3] at h
              | some v3 =>
                have e3 := skipDash_eq_some h3
                simp only [h3] at h
                cases h4 : getnum v3 true with
                | none => simp [h4] at h
                | some dv =>
                  obtain ⟨d, v4⟩ := dv
                  obtain ⟨d1, d2, hd1, hd2, e4, hdv⟩ := getnum_fixed_eq_some h4
                  simp only [h4] at h
                  by_cases hl : v4.length ≠ 0
                  · rw [if_pos hl] at h
                    simp at h
                  · rw [if_neg hl] at h
                    by_cases hdr : d < 1 ∨ d > daysIn m y
                    · rw [if_pos hdr] at h
                      simp at h
                    · rw [if_neg hdr] at h
                      have hv4 : v4 = [] := by
                        cases v4 with
                        | nil => rfl
                        | cons _ _ => simp at hl
                      refine ⟨y, m, d, ⟨by omega, by omega, by omega, by omega, by omega⟩, ?_, ?_⟩
                      · rw [e1, e2, e3, e4, hv4]
                        simp only [formatDate]
                        have q1 : 48 + y / 1000 % 10 = a := by omega
                        have q2 : 48 + y / 100 % 10 = b := by omega
                        have q3 : 48 + y / 10 % 10 = c := by omega
                        have q4 : 48 + y % 10 = e := by omega
                        have q5 : 48 + m / 10 % 10 = 48 + m1 := by omega
                        have q6 : 48 + m % 10 = 48 + m2 := by omega
                        have q7 : 48 + d / 10 % 10 = 48 + d1 := by omega
                        have q8 : 48 + d % 10 = 48 + d2 := by omega
                        rw [q1, q2, q3, q4, q5, q6, q7, q8]
                      · simp only [Option.some.injEq] at h
                        rw [← h]
                        rfl

theorem timeParse_eq_none_of_not_date {s : List Nat}
    (h : ∀ y m d, ValidDate y m d → s ≠ formatDate y m d) : timeParse s = none := by
  cases hp : timeParse s with
  | none => rfl
  | some t =>
    obtain ⟨y, m, d, hv, hs, -⟩ := timeParse_eq_some hp
    exact absurd hs (h y m d hv)

theorem CustomDate_UnmarshalJSON_valid {y m d : Nat} (h : ValidDate y m d) :
    CustomDate.UnmarshalJSON (quoted (formatDate y m d)) = .ok (midnightUTC y m d) := by
  have hs : List.take ((quoted (formatDate y m d)).length - 2)
      (List.drop 1 (quoted (formatDate y m d))) = formatDate y m d := by
    simp [quoted, formatDate]
  have hl : ¬ (quoted (formatDate y m d)).length < 2 := by simp [quoted, formatDate]
  simp only [CustomDate.UnmarshalJSON, hl, if_false, hs, timeParse_formatDate h]

/-! ## binding -/

theorem bindInputTask_valid {raw : RawInputTask} (h : ValidTaskBody raw) :
    ∃ input, bindInputTask (some raw) = .ok input ∧ input.Title = raw.title ∧
      input.Description = raw.description ∧ input.Status = raw.status := by
  obtain ⟨ht, hs, hd, hte⟩ := h
  have hv : ∀ d : Option Time,
      InputTask.validate ⟨raw.title, raw.description, raw.status, d⟩ = true := by
    intro d
    rcases hs with hs | hs | hs <;> simp [InputTask.validate, ht, hs]
  rcases hd with hd | ⟨y, m, d, hv1, hd⟩
  · exact ⟨⟨raw.title, raw.description, raw.status, none⟩,
      by simp [bindInputTask, hd, hv, hte], rfl, rfl, rfl⟩
  · exact ⟨⟨raw.title, raw.description, raw.status, some (midnightUTC y m d)⟩,
      by simp [bindInputTask, hd, CustomDate_UnmarshalJSON_valid hv1, hv, hte], rfl, rfl, rfl⟩

/-! ## task handlers behind the ownership guard -/

theorem createTaskRow_fresh {db : Store} (r : TaskRow) (h : FreshTaskID db r.ID) :
    createTaskRow db r = some { db with tasks := db.tasks ++ [r] } := by
  have hany : ∀ x ∈ db.tasks, ¬ x.ID = r.ID := h
  simp only [createTaskRow, List.any_eq_true, beq_iff_eq]
  rw [if_neg]
  rintro ⟨x, hx, hxe⟩
  exact hany x hx hxe

theorem firstTask_append_fresh {db : Store} (r : TaskRow) (h : FreshTaskID db r.ID) :
    firstTask { db with tasks := db.tasks ++ [r] } r.ID = some r := by
  have hnone : List.find? (fun x => x.ID == r.ID) db.tasks = none := by
    simp only [List.find?_eq_none]
    intro x hx
    simpa using h x hx
  simp [firstTask, List.find?_append, hnone]

theorem CreateTask_created {db : Store} {u p newID : UUID} {body : Option RawInputTask}
    {input : InputTask} (ho : Owns db u p) (hb : bindInputTask body = .ok input)
    (hfresh : FreshTaskID db newID) :
    (CreateTask db (some p) (.uuid u) body newID).1.status = 201 := by
  obtain ⟨r, hf⟩ := firstOwnedProject_of_owns ho
  cases hd : input.Deadline with
  | none =>
    simp only [CreateTask, GetUserIDFromContext, hf, hb, hd]
    rw [createTaskRow_fresh _ hfresh]
    simp only []
    rw [firstTask_append_fresh _ hfresh]
  | some t =>
    simp only [CreateTask, GetUserIDFromContext, hf, hb, hd]
    rw [createTaskRow_fresh _ hfresh]
    simp only []
    rw [firstTask_append_fresh _ hfresh]

theorem not_owned_task_handlers {db : Store} {u p : UUID} (h : ¬ Owns db u p)
    (tid : UUID) (body : Option RawInputTask) (newID : UUID) :
    CreateTask db (some p) (.uuid u) body newID =
        (⟨404, .error "Project not found or you don\x27t have access to this project"⟩, db) ∧
    GetTasksByProject db (some p) (.uuid u) =
        (⟨404, .error "Project not found or you don\x27t have access to this project"⟩, db) ∧
    GetTaskByID db (some p) (some tid) (.uuid u) =
        (⟨404, .error "Project not found or you don\x27t have access to this project"⟩, db) ∧
    UpdateTask db (some p) (some tid) (.uuid u) body newID =
        (⟨404, .error "Project not found or you don\x27t have access to this project"⟩, db) ∧
    DeleteTask db (some p) (some tid) (.uuid u) =
        (⟨404, .error "Project not found or you don\x27t have access to this project"⟩, db) := by
  have hf := firstOwnedProject_eq_none.2 h
  refine ⟨?_, ?_, ?_, ?_, ?_⟩
  · simp [CreateTask, GetUserIDFromContext, hf]
  · simp [GetTasksByProject, GetUserIDFromContext, hf]
  · simp [GetTaskByID, GetUserIDFromContext, hf]
  · simp [UpdateTask, GetUserIDFromContext, hf]
  · simp [DeleteTask, GetUserIDFromContext, hf]

theorem firstTaskIn_eq_none {db : Store} {t p : UUID} :
    firstTaskIn db t p = none ↔ ¬ HasTask db p t := by
  simp [firstTaskIn, HasTask]

theorem firstTaskIn_eq_some {db : Store} {t p : UUID} {r : TaskRow}
    (h : firstTaskIn db t p = some r) : r ∈ db.tasks ∧ r.ID = t ∧ r.ProjectID = p := by
  unfold firstTaskIn at h
  have h1 := List.find?_some h
  have h2 := List.mem_of_find?_eq_some h
  simp at h1
  exact ⟨h2, h1.1, h1.2⟩

theorem hasTask_of_firstTaskIn {db : Store} {t p : UUID} {r : TaskRow}
    (h : firstTaskIn db t p = some r) : HasTask db p t :=
  ⟨r, firstTaskIn_eq_some h⟩

theorem updatesTask_fresh {db : Store} (id : UUID) (u : TaskRow) (h : FreshTaskID db u.ID) :
    updatesTask db id u = some (setTasks db id u) := by
  unfold updatesTask
  rw [if_neg]
  rintro ⟨-, -, h3⟩
  simp only [List.any_eq_true, Bool.and_eq_true, beq_iff_eq] at h3
  obtain ⟨x, hx, -, hxe⟩ := h3
  exact h x hx hxe

theorem TaskRow.assign_ID (u r : TaskRow) :
    (u.assign r).ID = if u.ID = 0 then r.ID else u.ID := rfl

theorem firstTask_updated {db : Store} {task : TaskRow} (hm : task ∈ db.tasks) (u : TaskRow)
    (hfresh : FreshTaskID db u.ID) :
    ∃ r0 ∈ db.tasks, r0.ID = task.ID ∧
      firstTask (setTasks db task.ID u) (u.assign task).ID = some (u.assign r0) := by
  simp only [firstTask, setTasks, List.find?_map]
  cases hfind : List.find? ((fun r => r.ID == (u.assign task).ID) ∘
      fun r => if r.ID = task.ID then u.assign r else r) db.tasks with
  | none =>
    exfalso
    rw [List.find?_eq_none] at hfind
    have := hfind task hm
    simp at this
  | some r0 =>
    have h1 := List.find?_some hfind
    have h2 := List.mem_of_find?_eq_some hfind
    by_cases hid : r0.ID = task.ID
    · exact ⟨r0, h2, hid, by simp [hid]⟩
    · exfalso
      simp only [Function.comp, hid, if_false, beq_iff_eq, TaskRow.assign_ID] at h1
      by_cases hz : u.ID = 0
      · simp only [hz, if_true] at h1
        exact hid h1
      · simp only [hz, if_false] at h1
        exact hfresh r0 h2 h1

theorem UpdateTask_found {db : Store} {u p t newID : UUID} {body : Option RawInputTask}
    {input : InputTask} {task : TaskRow} (ho : Owns db u p)
    (hb : bindInputTask body = .ok input) (hfresh : FreshTaskID db newID)
    (ht : firstTaskIn db t p = some task) :
    ∃ r0 ∈ db.tasks, r0.ID = t ∧ ∃ mem : TaskRow,
      UpdateTask db (some p) (some t) (.uuid u) body newID =
        (⟨200, .task "Task updated successfully"
          (preloadProjectUser
            (setTasks db t ⟨newID, p, input.Title, input.Description, input.Status, none⟩)
            (mem.scanInto
              (TaskRow.assign ⟨newID, p, input.Title, input.Description, input.Status, none⟩
                r0)))⟩,
         setTasks db t ⟨newID, p, input.Title, input.Description, input.Status, none⟩) := by
  obtain ⟨r, hf⟩ := firstOwnedProject_of_owns ho
  obtain ⟨hm, hid, -⟩ := firstTaskIn_eq_some ht
  have hfresh2 : FreshTaskID db
      (⟨newID, p, input.Title, input.Description, input.Status, none⟩ : TaskRow).ID := hfresh
  obtain ⟨r0, hr0, hr0id, hfirst⟩ := firstTask_updated hm _ hfresh2
  subst hid
  refine ⟨r0, hr0, hr0id, ?_⟩
  have hupd := updatesTask_fresh task.ID _ hfresh2
  cases hd : input.Deadline with
  | none =>
    refine ⟨TaskRow.assign ⟨newID, p, input.Title, input.Description, input.Status, none⟩ task,
      ?_⟩
    simp only [UpdateTask, GetUserIDFromContext, hf, hb, ht, hd, hupd]
    rw [hfirst]
  | some d =>
    have hassign : (TaskRow.assign ⟨newID, p, input.Title, input.Description, input.Status, none⟩
        { task with Deadline := some d }).ID =
        (TaskRow.assign ⟨newID, p, input.Title, input.Description, input.Status, none⟩ task).ID :=
      rfl
    refine ⟨TaskRow.assign ⟨newID, p, input.Title, input.Description, input.Status, none⟩
      { task with Deadline := some d }, ?_⟩
    simp only [UpdateTask, GetUserIDFromContext, hf, hb, ht, hd, hupd, hassign]
    rw [hfirst]

theorem UpdateTask_spec {db : Store} {u p t newID : UUID} {body : Option RawInputTask}
    {input : InputTask} (ho : Owns db u p) (hb : bindInputTask body = .ok input)
    (hfresh : FreshTaskID db newID) :
    ((UpdateTask db (some p) (some t) (.uuid u) body newID).1.status = 200 ↔ HasTask db p t) ∧
    ((UpdateTask db (some p) (some t) (.uuid u) body newID).1.status = 200 ∨
      ((UpdateTask db (some p) (some t) (.uuid u) body newID).1.status = 404 ∧
        (UpdateTask db (some p) (some t) (.uuid u) body newID).2 = db)) := by
  cases ht : firstTaskIn db t p with
  | none =>
    obtain ⟨r, hf⟩ := firstOwnedProject_of_owns ho
    have := firstTaskIn_eq_none.1 ht
    simp [UpdateTask, GetUserIDFromContext, hf, hb, ht, this]
  | some task =>
    obtain ⟨r0, -, -, mem, h⟩ := UpdateTask_found ho hb hfresh ht
    have := hasTask_of_firstTaskIn ht
    simp [h, this]

theorem GetTaskByID_spec {db : Store} {u p t : UUID} (ho : Owns db u p) :
    ((GetTaskByID db (some p) (some t) (.uuid u)).1.status = 200 ↔ HasTask db p t) ∧
    ((GetTaskByID db (some p) (some t) (.uuid u)).1.status = 200 ∨
      ((GetTaskByID db (some p) (some t) (.uuid u)).1.status = 404 ∧
        (GetTaskByID db (some p) (some t) (.uuid u)).2 = db)) := by
  obtain ⟨r, hf⟩ := firstOwnedProject_of_owns ho
  cases ht : firstTaskIn db t p with
  | none =>
    have := firstTaskIn_eq_none.1 ht
    simp [GetTaskByID, GetUserIDFromContext, hf, ht, this]
  | some task =>
    have := hasTask_of_firstTaskIn ht
    simp [GetTaskByID, GetUserIDFromContext, hf, ht, this]

theorem DeleteTask_spec {db : Store} {u p t : UUID} (ho : Owns db u p) :
    ((DeleteTask db (some p) (some t) (.uuid u)).1.status = 200 ↔ HasTask db p t) ∧
    ((DeleteTask db (some p) (some t) (.uuid u)).1.status = 200 ∨
      ((DeleteTask db (some p) (some t) (.uuid u)).1.status = 404 ∧
        (DeleteTask db (some p) (some t) (.uuid u)).2 = db)) := by
  obtain ⟨r, hf⟩ := firstOwnedProject_of_owns ho
  cases ht : firstTaskIn db t p with
  | none =>
    have := firstTaskIn_eq_none.1 ht
    simp [DeleteTask, GetUserIDFromContext, hf, ht, this]
  | some task =>
    have := hasTask_of_firstTaskIn ht
    simp [DeleteTask, GetUserIDFromContext, hf, ht, this]

theorem GetTasksByProject_ok {db : Store} {u p : UUID} (ho : Owns db u p) :
    (GetTasksByProject db (some p) (.uuid u)).1.status = 200 := by
  obtain ⟨r, hf⟩ := firstOwnedProject_of_owns ho
  simp [GetTasksByProject, GetUserIDFromContext, hf]

/-- C2: when the store holds no project with id `p` created by `u`, each of the five task
handlers answers 404 with the error body (no task data) and returns the store unchanged, for
every body, every well-formed task id and every generated id; and when `u` owns `p`,
`GetTasksByProject` answers 200 and `CreateTask` with a valid body answers 201 (the
generated id being fresh). -/
theorem C2_task_handlers_need_owned_project (db : Store) (u p : UUID) :
    (¬ Owns db u p → ∀ (tid : UUID) (body : Option RawInputTask) (newID : UUID),
      CreateTask db (some p) (.uuid u) body newID =
          (⟨404, .error "Project not found or you don\x27t have access to this project"⟩, db) ∧
      GetTasksByProject db (some p) (.uuid u) =
          (⟨404, .error "Project not found or you don\x27t have access to this project"⟩, db) ∧
      GetTaskByID db (some p) (some tid) (.uuid u) =
          (⟨404, .error "Project not found or you don\x27t have access to this project"⟩, db) ∧
      UpdateTask db (some p) (some tid) (.uuid u) body newID =
          (⟨404, .error "Project not found or you don\x27t have access to this project"⟩, db) ∧
      DeleteTask db (some p) (some tid) (.uuid u) =
          (⟨404, .error "Project not found or you don\x27t have access to this project"⟩, db)) ∧
    (Owns db u p →
      (GetTasksByProject db (some p) (.uuid u)).1.status = 200 ∧
      ∀ (raw : RawInputTask) (newID : UUID), ValidTaskBody raw → FreshTaskID db newID →
        (CreateTask db (some p) (.uuid u) (some raw) newID).1.status = 201) := by
  refine ⟨fun h tid body newID => not_owned_task_handlers h tid body newID, fun ho => ?_⟩
  refine ⟨GetTasksByProject_ok ho, fun raw newID hv hfresh => ?_⟩
  obtain ⟨input, hb, -⟩ := bindInputTask_valid hv
  exact CreateTask_created ho hb hfresh

/-- C2, instance: user 2 does not own project 10 of the sample store and gets the 404 answer
from all five handlers; user 1 owns it, lists its tasks and creates a task with a valid
body. -/
theorem C2_task_handlers_need_owned_project_witness :
    (¬ Owns sampleStore 2 10 ∧
      CreateTask sampleStore (some 10) (.uuid 2) (some ⟨"t", "", "todo", none, false⟩) 999 =
        (⟨404, .error "Project not found or you don\x27t have access to this project"⟩,
          sampleStore) ∧
      DeleteTask sampleStore (some 10) (some 100) (.uuid 2) =
        (⟨404, .error "Project not found or you don\x27t have access to this project"⟩,
          sampleStore)) ∧
    (Owns sampleStore 1 10 ∧
      ValidTaskBody ⟨"t", "", "todo", some (quoted (formatDate 2025 2 28)), false⟩ ∧
      FreshTaskID sampleStore 999 ∧
      (GetTasksByProject sampleStore (some 10) (.uuid 1)).1.status = 200 ∧
      (CreateTask sampleStore (some 10) (.uuid 1)
        (some ⟨"t", "", "todo", some (quoted (formatDate 2025 2 28)), false⟩) 999).1.status = 201) := by
  have hno : ¬ Owns sampleStore 2 10 := by decide
  have hown : Owns sampleStore 1 10 := by decide
  have hvalid : ValidTaskBody ⟨"t", "", "todo", some (quoted (formatDate 2025 2 28)), false⟩ :=
    ⟨by decide, Or.inl rfl, Or.inr ⟨2025, 2, 28, by decide, rfl⟩, rfl⟩
  have hfresh : FreshTaskID sampleStore 999 := by decide
  have h1 := (C2_task_handlers_need_owned_project sampleStore 2 10).1 hno 100
    (some ⟨"t", "", "todo", none, false⟩) 999
  have h2 := (C2_task_handlers_need_owned_project sampleStore 1 10).2 hown
  exact ⟨⟨hno, h1.1, h1.2.2.2.2⟩, hown, hvalid, hfresh, h2.1, h2.2 _ 999 hvalid hfresh⟩

/-- C3: for every store, every caller `u` who owns project `p` and every well-formed task id
`t`, each of `GetTaskByID`, `UpdateTask` (valid body, fresh generated id) and `DeleteTask` on
path `(p, t)` answers 200 exactly when the store holds a task with id `t` and project id `p`;
otherwise (in particular when task `t` is under another project) it answers 404 and returns
the store unchanged. -/
theorem C3_task_scoped_by_project (db : Store) (u p t : UUID) (raw : RawInputTask)
    (newID : UUID) (ho : Owns db u p) (hv : ValidTaskBody raw) (hfresh : FreshTaskID db newID) :
    (((GetTaskByID db (some p) (some t) (.uuid u)).1.status = 200 ↔ HasTask db p t) ∧
      ((GetTaskByID db (some p) (some t) (.uuid u)).1.status = 200 ∨
        ((GetTaskByID db (some p) (some t) (.uuid u)).1.status = 404 ∧
          (GetTaskByID db (some p) (some t) (.uuid u)).2 = db))) ∧
    (((UpdateTask db (some p) (some t) (.uuid u) (some raw) newID).1.status = 200 ↔
        HasTask db p t) ∧
      ((UpdateTask db (some p) (some t) (.uuid u) (some raw) newID).1.status = 200 ∨
        ((UpdateTask db (some p) (some t) (.uuid u) (some raw) newID).1.status = 404 ∧
          (UpdateTask db (some p) (some t) (.uuid u) (some raw) newID).2 = db))) ∧
    (((DeleteTask db (some p) (some t) (.uuid u)).1.status = 200 ↔ HasTask db p t) ∧
      ((DeleteTask db (some p) (some t) (.uuid u)).1.status = 200 ∨
        ((DeleteTask db (some p) (some t) (.uuid u)).1.status = 404 ∧
          (DeleteTask db (some p) (some t) (.uuid u)).2 = db))) := by
  obtain ⟨input, hb, -⟩ := bindInputTask_valid hv
  exact ⟨GetTaskByID_spec ho, UpdateTask_spec ho hb hfresh, DeleteTask_spec ho⟩

/-- C3, instance: user 1 owns projects 10 and 11 of the sample store; task 110 exists but is
under project 11, so path `(10, 110)` is answered 404 by the three handlers and nothing
changes. -/
theorem C3_task_scoped_by_project_witness :
    Owns sampleStore 1 10 ∧ Owns sampleStore 1 11 ∧ HasTask sampleStore 11 110 ∧
    ¬ HasTask sampleStore 10 110 ∧
    GetTaskByID sampleStore (some 10) (some 110) (.uuid 1) =
      (⟨404, .error "Task not found in this project or you don\x27t have access"⟩,
        sampleStore) ∧
    (UpdateTask sampleStore (some 10) (some 110) (.uuid 1)
        (some ⟨"t", "", "done", none, false⟩) 999).1.status ≠ 200 ∧
    (DeleteTask sampleStore (some 10) (some 110) (.uuid 1)).1.status ≠ 200 := by
  have hown : Owns sampleStore 1 10 := by decide
  have hno : ¬ HasTask sampleStore 10 110 := by decide
  have hvalid : ValidTaskBody ⟨"t", "", "done", none, false⟩ :=
    ⟨by decide, Or.inr (Or.inr rfl), Or.inl rfl, rfl⟩
  have h := C3_task_scoped_by_project sampleStore 1 10 110 ⟨"t", "", "done", none, false⟩ 999 hown
    hvalid (by decide)
  refine ⟨hown, by decide, by decide, hno, by decide, ?_, ?_⟩
  · exact fun h200 => hno (h.2.1.1.1 h200)
  · exact fun h200 => hno (h.2.2.1.1 h200)

/-! ## no ownership leak -/

theorem not_owns_of_absent {db : Store} {u p : UUID} (h : ∀ r ∈ db.projects, r.ID ≠ p) :
    ¬ Owns db u p := by
  rintro ⟨r, hr, hid, -⟩
  exact h r hr hid

theorem not_owns_of_other_owner {db : Store} {u p : UUID} (hwf : db.wf)
    (h : ∃ r ∈ db.projects, r.ID = p ∧ r.CreatedByID ≠ u) : ¬ Owns db u p := by
  rintro ⟨r', hr', hid', hc'⟩
  obtain ⟨r, hr, hid, hc⟩ := h
  have heq : r = r' := List.inj_on_of_nodup_map hwf.2.1 hr hr' (by rw [hid, hid'])
  subst heq
  exact hc hc'

theorem response_eq_of_not_owned {s1 s2 : Store} {u p : UUID} (h1 : ¬ Owns s1 u p)
    (h2 : ¬ Owns s2 u p) (tid : Option UUID) (pbody : Option UpdateProjectInput)
    (tbody : Option RawInputTask) (newID : UUID) :
    (GetProjectByID s1 (some p) (.uuid u)).1 = (GetProjectByID s2 (some p) (.uuid u)).1 ∧
    (UpdateProject s1 (some p) (.uuid u) pbody).1 = (UpdateProject s2 (some p) (.uuid u) pbody).1 ∧
    (DeleteProject s1 (some p) (.uuid u)).1 = (DeleteProject s2 (some p) (.uuid u)).1 ∧
    (CreateTask s1 (some p) (.uuid u) tbody newID).1 =
      (CreateTask s2 (some p) (.uuid u) tbody newID).1 ∧
    (GetTasksByProject s1 (some p) (.uuid u)).1 = (GetTasksByProject s2 (some p) (.uuid u)).1 ∧
    (GetTaskByID s1 (some p) tid (.uuid u)).1 = (GetTaskByID s2 (some p) tid (.uuid u)).1 ∧
    (UpdateTask s1 (some p) tid (.uuid u) tbody newID).1 =
      (UpdateTask s2 (some p) tid (.uuid u) tbody newID).1 ∧
    (DeleteTask s1 (some p) tid (.uuid u)).1 = (DeleteTask s2 (some p) tid (.uuid u)).1 := by
  have hf1 := firstOwnedProject_eq_none.2 h1
  have hf2 := firstOwnedProject_eq_none.2 h2
  refine ⟨?_, ?_, ?_, ?_, ?_, ?_, ?_, ?_⟩
  · simp [GetProjectByID, GetUserIDFromContext, hf1, hf2]
  · cases pbody <;> simp [UpdateProject, GetUserIDFromContext, hf1, hf2]
  · simp [DeleteProject, GetUserIDFromContext, hf1, hf2]
  · simp [CreateTask, GetUserIDFromContext, hf1, hf2]
  · simp [GetTasksByProject, GetUserIDFromContext, hf1, hf2]
  · cases tid <;> simp [GetTaskByID, GetUserIDFromContext, hf1, hf2]
  · cases tid <;> simp [UpdateTask, GetUserIDFromContext, hf1, hf2]
  · cases tid <;> simp [DeleteTask, GetUserIDFromContext, hf1, hf2]

/-- C4: for every caller `u`, project id `p`, store `s1` without a project of id `p` and
store `s2` (primary keys unique) holding a project of id `p` created by another user, the
three project-detail handlers and the five task handlers give the same response (status and
body) on `s1` and on `s2`, for every task id, body and generated id. -/
theorem C4_not_found_hides_ownership (s1 s2 : Store) (u p : UUID)
    (h1 : ∀ r ∈ s1.projects, r.ID ≠ p) (hwf : s2.wf)
    (h2 : ∃ r ∈ s2.projects, r.ID = p ∧ r.CreatedByID ≠ u)
    (tid : Option UUID) (pbody : Option UpdateProjectInput) (tbody : Option RawInputTask)
    (newID : UUID) :
    (GetProjectByID s1 (some p) (.uuid u)).1 = (GetProjectByID s2 (some p) (.uuid u)).1 ∧
    (UpdateProject s1 (some p) (.uuid u) pbody).1 = (UpdateProject s2 (some p) (.uuid u) pbody).1 ∧
    (DeleteProject s1 (some p) (.uuid u)).1 = (DeleteProject s2 (some p) (.uuid u)).1 ∧
    (CreateTask s1 (some p) (.uuid u) tbody newID).1 =
      (CreateTask s2 (some p) (.uuid u) tbody newID).1 ∧
    (GetTasksByProject s1 (some p) (.uuid u)).1 = (GetTasksByProject s2 (some p) (.uuid u)).1 ∧
    (GetTaskByID s1 (some p) tid (.uuid u)).1 = (GetTaskByID s2 (some p) tid (.uuid u)).1 ∧
    (UpdateTask s1 (some p) tid (.uuid u) tbody newID).1 =
      (UpdateTask s2 (some p) tid (.uuid u) tbody newID).1 ∧
    (DeleteTask s1 (some p) tid (.uuid u)).1 = (DeleteTask s2 (some p) tid (.uuid u)).1 :=
  response_eq_of_not_owned (not_owns_of_absent h1) (not_owns_of_other_owner hwf h2) tid pbody
    tbody newID

/-- C4, instance: project 20 is absent from the empty store and belongs to user 2 in the
sample store; user 1 gets the same answers about it on both. -/
theorem C4_not_found_hides_ownership_witness :
    (∀ r ∈ emptyStore.projects, r.ID ≠ 20) ∧ sampleStore.wf ∧
    (∃ r ∈ sampleStore.projects, r.ID = 20 ∧ r.CreatedByID ≠ 1) ∧
    (GetProjectByID emptyStore (some 20) (.uuid 1)).1 =
      (GetProjectByID sampleStore (some 20) (.uuid 1)).1 ∧
    (GetTaskByID emptyStore (some 20) (some 200) (.uuid 1)).1 =
      (GetTaskByID sampleStore (some 20) (some 200) (.uuid 1)).1 := by
  have h1 : ∀ r ∈ emptyStore.projects, r.ID ≠ 20 := by decide
  have hwf : sampleStore.wf := by decide
  have h2 : ∃ r ∈ sampleStore.projects, r.ID = 20 ∧ r.CreatedByID ≠ 1 := by decide
  have h := C4_not_found_hides_ownership emptyStore sampleStore 1 20 h1 hwf h2 (some 200) none
    none 999
  exact ⟨h1, hwf, h2, h.1, h.2.2.2.2.2.1⟩

/-! ## cascade on project deletion -/

theorem DeleteProject_owned {db : Store} {u p : UUID} (ho : Owns db u p) :
    DeleteProject db (some p) (.uuid u) =
      (⟨200, .message "Project deleted successfully"⟩,
        deleteProjectRow (deleteTasksOfProject db p) p) := by
  obtain ⟨r, hf⟩ := firstOwnedProject_of_owns ho
  have hid := (firstOwnedProject_eq_some hf).2.1
  simp [DeleteProject, GetUserIDFromContext, hf, hid]

theorem GetTaskByID_gone {db : Store} {t : UUID} (h : ∀ r ∈ db.tasks, r.ID ≠ t)
    (v p : UUID) : (GetTaskByID db (some p) (some t) (.uuid v)).1.status = 404 := by
  have hno : ¬ HasTask db p t := by
    rintro ⟨r, hr, hid, -⟩
    exact h r hr hid
  have ht := firstTaskIn_eq_none.2 hno
  cases hf : firstOwnedProject db p v <;>
    simp [GetTaskByID, GetUserIDFromContext, hf, ht]

/-- C5: for every store (primary keys unique) and caller `u` who owns project `p`,
`DeleteProject(p)` answers 200 and the store after it holds no project with id `p` and no
task with project id `p`; its users are unchanged, its projects are exactly the former
projects with another id and its tasks exactly the former tasks of other projects; and
`GetTaskByID` on the new store answers 404 for every task that was under `p`, for every
caller and every project id in the path. -/
theorem C5_delete_project_cascades (db : Store) (u p : UUID) (hwf : db.wf)
    (ho : Owns db u p) :
    (DeleteProject db (some p) (.uuid u)).1.status = 200 ∧
    (∀ r ∈ (DeleteProject db (some p) (.uuid u)).2.projects, r.ID ≠ p) ∧
    (∀ r ∈ (DeleteProject db (some p) (.uuid u)).2.tasks, r.ProjectID ≠ p) ∧
    (DeleteProject db (some p) (.uuid u)).2.users = db.users ∧
    (DeleteProject db (some p) (.uuid u)).2.projects =
      db.projects.filter (fun r => r.ID != p) ∧
    (DeleteProject db (some p) (.uuid u)).2.tasks =
      db.tasks.filter (fun r => r.ProjectID != p) ∧
    (∀ t, HasTask db p t → ∀ v q : UUID,
      (GetTaskByID (DeleteProject db (some p) (.uuid u)).2 (some q) (some t)
        (.uuid v)).1.status = 404) := by
  rw [DeleteProject_owned ho]
  refine ⟨rfl, ?_, ?_, rfl, rfl, rfl, ?_⟩
  · intro r hr
    simp [deleteProjectRow, deleteTasksOfProject] at hr
    exact hr.2
  · intro r hr
    simp [deleteProjectRow, deleteTasksOfProject] at hr
    exact hr.2
  · rintro t ⟨r, hr, hid, hp⟩ v q
    apply GetTaskByID_gone
    intro r' hr' hid'
    simp [deleteProjectRow, deleteTasksOfProject] at hr'
    have heq : r = r' := List.inj_on_of_nodup_map hwf.2.2 hr hr'.1 (by rw [hid, hid'])
    subst heq
    exact hr'.2 hp

/-- C5, instance: user 1 deletes project 10 of the sample store; task 100, which was under
it, is then not found, and the rows of projects 11 and 20 are all that is left. -/
theorem C5_delete_project_cascades_witness :
    sampleStore.wf ∧ Owns sampleStore 1 10 ∧ HasTask sampleStore 10 100 ∧
    (DeleteProject sampleStore (some 10) (.uuid 1)).2.tasks =
      sampleStore.tasks.filter (fun r => r.ProjectID != 10) ∧
    (GetTaskByID (DeleteProject sampleStore (some 10) (.uuid 1)).2 (some 10) (some 100)
      (.uuid 1)).1.status = 404 := by
  have hwf : sampleStore.wf := by decide
  have ho : Owns sampleStore 1 10 := by decide
  have ht : HasTask sampleStore 10 100 := by decide
  have h := C5_delete_project_cascades sampleStore 1 10 hwf ho
  exact ⟨hwf, ho, ht, h.2.2.2.2.2.1, h.2.2.2.2.2.2 100 ht 1 10⟩

/-! ## rejected bodies -/

theorem CustomDate_UnmarshalJSON_err {b : List Nat} (hlen : 2 ≤ b.length)
    (hp : timeParse ((b.drop 1).take (b.length - 2)) = none) :
    CustomDate.UnmarshalJSON b = .err () := by
  have hlen2 : ¬ b.length < 2 := by omega
  unfold CustomDate.UnmarshalJSON
  rw [if_neg hlen2]
  simp only [hp]

theorem CustomDate_UnmarshalJSON_ok {b : List Nat} {t : Time} (hlen : 2 ≤ b.length)
    (hp : timeParse ((b.drop 1).take (b.length - 2)) = some t) :
    CustomDate.UnmarshalJSON b = .ok t := by
  have hlen2 : ¬ b.length < 2 := by omega
  unfold CustomDate.UnmarshalJSON
  rw [if_neg hlen2]
  simp only [hp]

theorem bindInputTask_bad_status {raw : RawInputTask}
    (hs : raw.status ≠ "todo" ∧ raw.status ≠ "in_progress" ∧ raw.status ≠ "done")
    (hd : ∀ b, raw.deadline = some b → 2 ≤ b.length) :
    ∃ e, bindInputTask (some raw) = .err e := by
  have hv : ∀ d : Option Time,
      InputTask.validate ⟨raw.title, raw.description, raw.status, d⟩ = false := by
    intro d
    simp [InputTask.validate, hs.1, hs.2.1, hs.2.2]
  cases hte : raw.typeError with
  | true =>
    cases hdl : raw.deadline with
    | none => exact ⟨.decode, by simp [bindInputTask, hdl, hte]⟩
    | some b =>
      have hlen := hd b hdl
      cases hp : timeParse ((b.drop 1).take (b.length - 2)) with
      | none =>
        exact ⟨.date, by simp [bindInputTask, hdl, CustomDate_UnmarshalJSON_err hlen hp]⟩
      | some t =>
        exact ⟨.decode, by simp [bindInputTask, hdl, CustomDate_UnmarshalJSON_ok hlen hp, hte]⟩
  | false =>
    cases hdl : raw.deadline with
    | none => exact ⟨.validation, by simp [bindInputTask, hdl, hv, hte]⟩
    | some b =>
      have hlen := hd b hdl
      cases hp : timeParse ((b.drop 1).take (b.length - 2)) with
      | none =>
        exact ⟨.date, by simp [bindInputTask, hdl, CustomDate_UnmarshalJSON_err hlen hp]⟩
      | some t =>
        exact ⟨.validation,
          by simp [bindInputTask, hdl, CustomDate_UnmarshalJSON_ok hlen hp, hv, hte]⟩

theorem CreateTask_bad_status {db : Store} {u p : UUID} (ho : Owns db u p)
    {raw : RawInputTask}
    (hs : raw.status ≠ "todo" ∧ raw.status ≠ "in_progress" ∧ raw.status ≠ "done")
    (hd : ∀ b, raw.deadline = some b → 2 ≤ b.length) (newID : UUID) :
    (CreateTask db (some p) (.uuid u) (some raw) newID).1.status = 400 ∧
    (CreateTask db (some p) (.uuid u) (some raw) newID).2 = db := by
  obtain ⟨r, hf⟩ := firstOwnedProject_of_owns ho
  obtain ⟨e, he⟩ := bindInputTask_bad_status hs hd
  simp [CreateTask, GetUserIDFromContext, hf, he, bindFailure]

theorem bindInputTask_bad_date {raw : RawInputTask} {b : List Nat}
    (hdl : raw.deadline = some b) (hlen : 2 ≤ b.length)
    (hp : timeParse ((b.drop 1).take (b.length - 2)) = none) :
    bindInputTask (some raw) = .err .date := by
  simp [bindInputTask, hdl, CustomDate_UnmarshalJSON_err hlen hp]

theorem task_handlers_bad_date {db : Store} {u p : UUID} (ho : Owns db u p)
    {raw : RawInputTask} {b : List Nat} (hdl : raw.deadline = some b) (hlen : 2 ≤ b.length)
    (hp : timeParse ((b.drop 1).take (b.length - 2)) = none) (tid newID : UUID) :
    CreateTask db (some p) (.uuid u) (some raw) newID = (⟨400, .bindError .date⟩, db) ∧
    UpdateTask db (some p) (some tid) (.uuid u) (some raw) newID =
      (⟨400, .bindError .date⟩, db) := by
  obtain ⟨r, hf⟩ := firstOwnedProject_of_owns ho
  have he := bindInputTask_bad_date hdl hlen hp
  constructor
  · simp [CreateTask, GetUserIDFromContext, hf, he, bindFailure]
  · simp [UpdateTask, GetUserIDFromContext, hf, he, bindFailure]

theorem task_handlers_reject_invalid_date {db : Store} {u p : UUID} (ho : Owns db u p)
    {raw : RawInputTask} {b : List Nat} (hdl : raw.deadline = some b) (hlen : 2 ≤ b.length)
    (hbad : ∀ y m d, ValidDate y m d → (b.drop 1).take (b.length - 2) ≠ formatDate y m d)
    (tid newID : UUID) :
    CreateTask db (some p) (.uuid u) (some raw) newID = (⟨400, .bindError .date⟩, db) ∧
    UpdateTask db (some p) (some tid) (.uuid u) (some raw) newID =
      (⟨400, .bindError .date⟩, db) :=
  task_handlers_bad_date ho hdl hlen (timeParse_eq_none_of_not_date hbad) tid newID

/-- C6: the code at the failing input.  User 1 owns project 10; the body
`title "t", status "bogus", deadline 5` has a status outside the three allowed values, yet
`CreateTask` does not answer 400: decoding the one-byte deadline panics in
`CustomDate.UnmarshalJSON` before the status is validated, and the answer is the 500 of the
recovery middleware (the store is unchanged). -/
theorem C6_bad_status_with_one_byte_deadline :
    Owns sampleStore 1 10 ∧
    CreateTask sampleStore (some 10) (.uuid 1) (some ⟨"t", "", "bogus", some (ascii "5"), false⟩) 999 =
      (⟨500, .empty⟩, sampleStore) := by
  decide

/-- C7: the code at the failing input.  User 1 owns project 10; the body
`title "t", status "todo", deadline 5` carries a deadline that is a non-string JSON value,
yet neither `CreateTask` nor `UpdateTask` answers 400: `CustomDate.UnmarshalJSON` panics on
the one-byte value and the answer is the 500 of the recovery middleware. -/
theorem C7_one_byte_deadline_panics :
    CustomDate.UnmarshalJSON (ascii "5") = .panicked ∧
    CreateTask sampleStore (some 10) (.uuid 1) (some ⟨"t", "", "todo", some (ascii "5"), false⟩) 999 =
      (⟨500, .empty⟩, sampleStore) ∧
    UpdateTask sampleStore (some 10) (some 100) (.uuid 1)
        (some ⟨"t", "", "todo", some (ascii "5"), false⟩) 999 =
      (⟨500, .empty⟩, sampleStore) := by
  decide

/-! ## what `UpdateTask` writes -/

theorem UpdateTask_moves_id {db : Store} {u p t newID : UUID} {raw : RawInputTask}
    (ho : Owns db u p) (hv : ValidTaskBody raw) (hfresh : FreshTaskID db newID)
    (ht : HasTask db p t) (hnz : newID ≠ 0) :
    (UpdateTask db (some p) (some t) (.uuid u) (some raw) newID).1.status = 200 ∧
    (∀ r ∈ (UpdateTask db (some p) (some t) (.uuid u) (some raw) newID).2.tasks, r.ID ≠ t) ∧
    (∃ r ∈ (UpdateTask db (some p) (some t) (.uuid u) (some raw) newID).2.tasks,
      r.ID = newID ∧ r.ProjectID = p) ∧
    (UpdateTask db (some p) (some t) (.uuid u) (some raw) newID).2.tasks.length =
      db.tasks.length ∧
    (∀ r ∈ db.tasks, r.ID ≠ t →
      r ∈ (UpdateTask db (some p) (some t) (.uuid u) (some raw) newID).2.tasks) := by
  obtain ⟨input, hb, -⟩ := bindInputTask_valid hv
  cases hfi : firstTaskIn db t p with
  | none => exact absurd ht (firstTaskIn_eq_none.1 hfi)
  | some task =>
    obtain ⟨r0, hr0, hr0id, mem, h⟩ := UpdateTask_found ho hb hfresh hfi
    obtain ⟨r1, hr1, hr1id, hr1p⟩ := ht
    have hne : newID ≠ t := fun e => hfresh r1 hr1 (by rw [hr1id, e])
    rw [h]
    refine ⟨rfl, ?_, ?_, ?_, ?_⟩
    · intro r hr
      simp only [setTasks, List.mem_map] at hr
      obtain ⟨x, hx, hxe⟩ := hr
      by_cases hxt : x.ID = t
      · rw [if_pos hxt] at hxe
        rw [← hxe, TaskRow.assign_ID]
        simp only [hnz, if_false]
        exact hne
      · rw [if_neg hxt] at hxe
        rw [← hxe]
        exact hxt
    · refine ⟨TaskRow.assign ⟨newID, p, input.Title, input.Description, input.Status, none⟩ r1,
        ?_, ?_, ?_⟩
      · simp only [setTasks, List.mem_map]
        exact ⟨r1, hr1, by rw [if_pos hr1id]⟩
      · simp [TaskRow.assign, hnz]
      · simp only [TaskRow.assign, hr1p]
        split <;> simp_all
    · simp [setTasks]
    · intro r hr hrt
      simp only [setTasks, List.mem_map]
      exact ⟨r, hr, by rw [if_neg hrt]⟩

/-- C8: the code at the failing input.  User 1 owns project 10 of the sample store and task
100 is under it; `UpdateTask(10, 100)` with a valid body and generated id 999 answers 200,
and afterwards no task has id 100: the row now has id 999, the generated identifier placed in
the update record (the other rows and the number of rows are unchanged). -/
theorem C8_update_task_replaces_identifier :
    Owns sampleStore 1 10 ∧ HasTask sampleStore 10 100 ∧ FreshTaskID sampleStore 999 ∧
    (UpdateTask sampleStore (some 10) (some 100) (.uuid 1)
      (some ⟨"new", "d", "done", none, false⟩) 999).1.status = 200 ∧
    (∀ r ∈ (UpdateTask sampleStore (some 10) (some 100) (.uuid 1)
      (some ⟨"new", "d", "done", none, false⟩) 999).2.tasks, r.ID ≠ 100) ∧
    (UpdateTask sampleStore (some 10) (some 100) (.uuid 1)
      (some ⟨"new", "d", "done", none, false⟩) 999).2.tasks =
      [⟨999, 10, "new", "d", "done", some ⟨2024, 1, 31, 0, 0, 0, 0⟩⟩,
       ⟨110, 11, "t110", "", "done", none⟩, ⟨200, 20, "t200", "", "todo", none⟩] ∧
    (GetTaskByID (UpdateTask sampleStore (some 10) (some 100) (.uuid 1)
      (some ⟨"new", "d", "done", none, false⟩) 999).2 (some 10) (some 100) (.uuid 1)).1.status = 404 := by
  decide

/-- C9, counterexample: user 1 owns project 10 and task 100 (description `old`, deadline
2024-01-31) is under it; a successful `UpdateTask` with the valid body
`title "new", description "", status "done", deadline "2025-02-28"` leaves no stored task
with the body's title, description and status: the description is still `old`. -/
theorem C9_counterexample_empty_description :
    Owns sampleStore 1 10 ∧ HasTask sampleStore 10 100 ∧
    ValidTaskBody ⟨"new", "", "done", some (quoted (formatDate 2025 2 28)), false⟩ ∧
    (UpdateTask sampleStore (some 10) (some 100) (.uuid 1)
      (some ⟨"new", "", "done", some (quoted (formatDate 2025 2 28)), false⟩) 999).1.status = 200 ∧
    (¬ ∃ r ∈ (UpdateTask sampleStore (some 10) (some 100) (.uuid 1)
        (some ⟨"new", "", "done", some (quoted (formatDate 2025 2 28)), false⟩) 999).2.tasks,
      r.Title = "new" ∧ r.Description = "" ∧ r.Status = "done") ∧
    (∀ r ∈ (UpdateTask sampleStore (some 10) (some 100) (.uuid 1)
        (some ⟨"new", "", "done", some (quoted (formatDate 2025 2 28)), false⟩) 999).2.tasks,
      r.ProjectID = 10 → r.Description = "old") := by
  refine ⟨by decide, by decide, ⟨by decide, Or.inr (Or.inr rfl),
    Or.inr ⟨2025, 2, 28, by decide, rfl⟩, rfl⟩, by decide, by decide, by decide⟩

/-- C9, amended: for every store with unique primary keys, owner `u` of project `p`, task
`old` with id `t` under `p`, valid body and fresh generated id, `UpdateTask` answers 200 and
a row of the store after the update has the body's title and status, project id `p`, and
the body's description when it is non-empty, the former description when the body's
description is empty; the task in the response has the id, project id, title, description
and status of that row, with the row's project and creator joined.  Nothing is said of the
deadline, stored or returned. -/
theorem C9_update_task_writes_non_zero_fields (db : Store) (u p t newID : UUID)
    (raw : RawInputTask) (old : TaskRow) (hwf : db.wf) (ho : Owns db u p)
    (hv : ValidTaskBody raw) (hfresh : FreshTaskID db newID)
    (hold : old ∈ db.tasks) (hid : old.ID = t) (hp : old.ProjectID = p) :
    ∃ row ∈ (UpdateTask db (some p) (some t) (.uuid u) (some raw) newID).2.tasks,
      ∃ resp : Task,
      (UpdateTask db (some p) (some t) (.uuid u) (some raw) newID).1 =
        ⟨200, .task "Task updated successfully" resp⟩ ∧
      resp.ID = row.ID ∧ resp.ProjectID = row.ProjectID ∧ resp.Title = row.Title ∧
      resp.Description = row.Description ∧ resp.Status = row.Status ∧
      resp.Project = ((firstProject
          (UpdateTask db (some p) (some t) (.uuid u) (some raw) newID).2 row.ProjectID).map
        (preloadUser (UpdateTask db (some p) (some t) (.uuid u) (some raw) newID).2)).getD
          Project.zero ∧
      row.Title = raw.title ∧ row.Status = raw.status ∧ row.ProjectID = p ∧
      row.Description = (if raw.description = "" then old.Description else raw.description) := by
  obtain ⟨input, hb, hti, hde, hst⟩ := bindInputTask_valid hv
  have ht : HasTask db p t := ⟨old, hold, hid, hp⟩
  cases hfi : firstTaskIn db t p with
  | none => exact absurd ht (firstTaskIn_eq_none.1 hfi)
  | some task =>
    obtain ⟨r0, hr0, hr0id, mem, h⟩ := UpdateTask_found ho hb hfresh hfi
    have heq : r0 = old := List.inj_on_of_nodup_map hwf.2.2 hr0 hold (by rw [hr0id, hid])
    subst heq
    rw [h]
    refine ⟨TaskRow.assign ⟨newID, p, input.Title, input.Description, input.Status, none⟩ r0,
      ?_, _, rfl, rfl, rfl, rfl, rfl, rfl, rfl, ?_, ?_, ?_, ?_⟩
    · simp only [setTasks, List.mem_map]
      exact ⟨r0, hr0, by rw [if_pos hr0id]⟩
    · have : raw.title ≠ "" := hv.1
      simp [TaskRow.assign, hti, this]
    · have : raw.status ≠ "" := by
        rcases hv.2.1 with h | h | h <;> rw [h] <;> decide
      simp [TaskRow.assign, hst, this]
    · simp only [TaskRow.assign, hp]
      split <;> simp_all
    · simp only [TaskRow.assign, hde]

/-- C9, amended, instance: user 1 updates task 110 of project 11 of the sample store (no
stored deadline) with a body that supplies a deadline and an empty description; the title
and status are written and the description stays as it was. -/
theorem C9_update_task_writes_non_zero_fields_witness :
    sampleStore.wf ∧ Owns sampleStore 1 11 ∧
    ValidTaskBody ⟨"new", "", "todo", some (quoted (formatDate 2025 2 28)), false⟩ ∧
    FreshTaskID sampleStore 999 ∧
    ∃ row ∈ (UpdateTask sampleStore (some 11) (some 110) (.uuid 1)
        (some ⟨"new", "", "todo", some (quoted (formatDate 2025 2 28)), false⟩) 999).2.tasks,
      ∃ resp : Task,
      (UpdateTask sampleStore (some 11) (some 110) (.uuid 1)
        (some ⟨"new", "", "todo", some (quoted (formatDate 2025 2 28)), false⟩) 999).1 =
        ⟨200, .task "Task updated successfully" resp⟩ ∧
      resp.Title = row.Title ∧ resp.Description = row.Description ∧
      resp.Status = row.Status ∧
      row.Title = "new" ∧ row.Status = "todo" ∧ row.ProjectID = 11 ∧ row.Description = "" := by
  have hwf : sampleStore.wf := by decide
  have ho : Owns sampleStore 1 11 := by decide
  have hv : ValidTaskBody ⟨"new", "", "todo", some (quoted (formatDate 2025 2 28)), false⟩ :=
    ⟨by decide, Or.inl rfl, Or.inr ⟨2025, 2, 28, by decide, rfl⟩, rfl⟩
  have hfresh : FreshTaskID sampleStore 999 := by decide
  obtain ⟨row, hrow, resp, h1, -, -, h4, h5, h6, -, h8, h9, h10, h11⟩ :=
    C9_update_task_writes_non_zero_fields sampleStore 1 11 110 999
      ⟨"new", "", "todo", some (quoted (formatDate 2025 2 28)), false⟩
      ⟨110, 11, "t110", "", "done", none⟩ hwf ho hv hfresh (by decide) rfl rfl
  exact ⟨hwf, ho, hv, hfresh, row, hrow, resp, h1, h4, h5, h6, h8, h9, h10, h11⟩

theorem UpdateTask_returns_unsaved_deadline :
    (UpdateTask sampleStore (some 11) (some 110) (.uuid 1)
      (some ⟨"new", "", "todo", some (quoted (formatDate 2025 2 28)), false⟩) 999) =
      (⟨200, .task "Task updated successfully"
        ⟨999, 11, "new", "", "todo", some ⟨2025, 2, 28, 0, 0, 0, 0⟩,
          ⟨11, "beta", "y", 1, ⟨1, "ann", "ann@example.org", "h1"⟩⟩⟩⟩,
       { users := sampleUsers,
         projects := [⟨10, "alpha", "x", 1⟩, ⟨11, "beta", "y", 1⟩, ⟨20, "gamma", "z", 2⟩],
         tasks := [⟨100, 10, "t100", "old", "todo", some ⟨2024, 1, 31, 0, 0, 0, 0⟩⟩,
                   ⟨999, 11, "new", "", "todo", none⟩,
                   ⟨200, 20, "t200", "", "todo", none⟩] }) := by
  decide

theorem bindInputTask_type_error_still_panics :
    bindInputTask (some ⟨"", "", "todo", some (ascii "5"), true⟩) = .panicked ∧
    CreateTask sampleStore (some 10) (.uuid 1)
        (some ⟨"", "", "todo", some (ascii "5"), true⟩) 999 =
      (⟨500, .empty⟩, sampleStore) ∧
    CreateTask sampleStore (some 10) (.uuid 1) (some ⟨"", "", "todo", none, true⟩) 999 =
      (⟨400, .bindError .decode⟩, sampleStore) := by
  decide

/-! ## create, then get -/

/-- C10: for every store, non-empty name `n`, description `d`, existing user `usr` with
non-nil id `w` and fresh generated id, `CreateProject` with body `name n, description d,
created_by w` answers 201 with the project `(newID, n, d, w)` joined with `usr`, and
`GetProjectByID` on the returned id by caller `w` answers 200 with the same project: the
same id, name `n`, description `d` and creator `usr`; the JSON object written for the
creator has exactly the members `id`, `name`, `email` and does not depend on the password. -/
theorem C10_create_then_get_project (db : Store) (n d : String) (w newID : UUID) (usr : User)
    (hn : n ≠ "") (hw0 : w ≠ 0) (hw : firstUser db w = some usr)
    (hfresh : FreshProjectID db newID) :
    (CreateProject db (some ⟨n, d, w⟩) newID).1 =
      ⟨201, .project "Project created successfully" ⟨newID, n, d, w, usr⟩⟩ ∧
    GetProjectByID (CreateProject db (some ⟨n, d, w⟩) newID).2 (some newID) (.uuid w) =
      (⟨200, .project "Project retrieved successfully" ⟨newID, n, d, w, usr⟩⟩,
        (CreateProject db (some ⟨n, d, w⟩) newID).2) ∧
    usr.ID = w ∧
    usr.marshalJSON = [("id", .uuid w), ("name", .str usr.Name), ("email", .str usr.Email)] ∧
    (∀ pw : String, ({ usr with Password := pw } : User).marshalJSON = usr.marshalJSON) := by
  have hid : usr.ID = w := by
    have := List.find?_some hw
    simpa using this
  have hnone : List.find? (fun r => r.ID == newID) db.projects = none := by
    simp only [List.find?_eq_none]
    intro x hx
    simpa using hfresh x hx
  have hnone2 : List.find? (fun r => r.ID == newID && r.CreatedByID == w) db.projects = none := by
    simp only [List.find?_eq_none]
    intro x hx
    have := hfresh x hx
    simp [this]
  have hany : ¬ (db.projects.any (fun x => x.ID == newID) = true) := by
    simp only [List.any_eq_true, beq_iff_eq]
    rintro ⟨x, hx, hxe⟩
    exact hfresh x hx hxe
  have hcreate : CreateProject db (some ⟨n, d, w⟩) newID =
      (⟨201, .project "Project created successfully" ⟨newID, n, d, w, usr⟩⟩,
        { db with projects := db.projects ++ [⟨newID, n, d, w⟩] }) := by
    have hw2 : List.find? (fun r => r.ID == w) db.users = some usr := hw
    simp [CreateProject, hn, hw0, hw, createProjectRow, hany, firstProject, List.find?_append,
      hnone, preloadUser, firstUser, hw2]
  rw [hcreate]
  refine ⟨rfl, ?_, hid, ?_, fun pw => rfl⟩
  · have hw2 : List.find? (fun r => r.ID == w) db.users = some usr := hw
    simp [GetProjectByID, GetUserIDFromContext, firstOwnedProject, List.find?_append, hnone2,
      preloadUser, firstUser, hw2]
  · simp [User.marshalJSON, hid]

/-- C10, instance: user 1 of the sample store creates project `Alpha` with description `x`
and fetches it. -/
theorem C10_create_then_get_project_witness :
    FreshProjectID sampleStore 30 ∧
    (CreateProject sampleStore (some ⟨"Alpha", "x", 1⟩) 30).1 =
      ⟨201, .project "Project created successfully"
        ⟨30, "Alpha", "x", 1, ⟨1, "ann", "ann@example.org", "h1"⟩⟩⟩ ∧
    GetProjectByID (CreateProject sampleStore (some ⟨"Alpha", "x", 1⟩) 30).2 (some 30) (.uuid 1) =
      (⟨200, .project "Project retrieved successfully"
        ⟨30, "Alpha", "x", 1, ⟨1, "ann", "ann@example.org", "h1"⟩⟩⟩,
        (CreateProject sampleStore (some ⟨"Alpha", "x", 1⟩) 30).2) := by
  have hfresh : FreshProjectID sampleStore 30 := by decide
  have h := C10_create_then_get_project sampleStore "Alpha" "x" 1 30
    ⟨1, "ann", "ann@example.org", "h1"⟩ (by decide) (by decide) rfl hfresh
  exact ⟨hfresh, h.1, h.2.1⟩

/-! ## repeated deletes -/

theorem DeleteTask_found {db : Store} {u p t : UUID} {r : ProjectRow} {task : TaskRow}
    (hf : firstOwnedProject db p u = some r) (ht : firstTaskIn db t p = some task) :
    DeleteTask db (some p) (some t) (.uuid u) =
      (⟨200, .message "Task deleted successfully"⟩, deleteTaskRow db t) := by
  have hid := (firstTaskIn_eq_some ht).2.1
  simp [DeleteTask, GetUserIDFromContext, hf, ht, hid]

theorem DeleteTask_status_200 {db : Store} {u p t : UUID}
    (h : (DeleteTask db (some p) (some t) (.uuid u)).1.status = 200) :
    Owns db u p ∧ HasTask db p t := by
  cases hf : firstOwnedProject db p u with
  | none => simp [DeleteTask, GetUserIDFromContext, hf] at h
  | some r =>
    cases ht : firstTaskIn db t p with
    | none => simp [DeleteTask, GetUserIDFromContext, hf, ht] at h
    | some task => exact ⟨owns_of_firstOwnedProject hf, hasTask_of_firstTaskIn ht⟩

/-- C11: for every store and caller `u`, if `DeleteProject(p)` answers 200 then the same
request on the resulting store answers 404 (the not-found body, not 500) and returns that
store unchanged; and if `DeleteTask(p, t)` answers 200 then the same request on the
resulting store answers 404 and returns that store unchanged. -/
theorem C11_repeated_delete_is_not_found (db : Store) (u p t : UUID) :
    ((DeleteProject db (some p) (.uuid u)).1.status = 200 →
      DeleteProject (DeleteProject db (some p) (.uuid u)).2 (some p) (.uuid u) =
        (⟨404, .error "Project not found or you don\x27t have access"⟩,
          (DeleteProject db (some p) (.uuid u)).2)) ∧
    ((DeleteTask db (some p) (some t) (.uuid u)).1.status = 200 →
      DeleteTask (DeleteTask db (some p) (some t) (.uuid u)).2 (some p) (some t) (.uuid u) =
        (⟨404, .error "Task not found in this project or you don\x27t have access"⟩,
          (DeleteTask db (some p) (some t) (.uuid u)).2)) := by
  constructor
  · intro h
    have ho : Owns db u p := (DeleteProject_spec db u p).1.1 h
    rw [DeleteProject_owned ho]
    have hno : ¬ Owns (deleteProjectRow (deleteTasksOfProject db p) p) u p := by
      rintro ⟨r, hr, hid, -⟩
      simp [deleteProjectRow, deleteTasksOfProject] at hr
      exact hr.2 hid
    have hf := firstOwnedProject_eq_none.2 hno
    simp [DeleteProject, GetUserIDFromContext, hf]
  · intro h
    obtain ⟨ho, ht⟩ := DeleteTask_status_200 h
    obtain ⟨r, hf⟩ := firstOwnedProject_of_owns ho
    cases hfi : firstTaskIn db t p with
    | none => exact absurd ht (firstTaskIn_eq_none.1 hfi)
    | some task =>
      rw [DeleteTask_found hf hfi]
      have hf2 : firstOwnedProject (deleteTaskRow db t) p u = some r := hf
      have hno : ¬ HasTask (deleteTaskRow db t) p t := by
        rintro ⟨x, hx, hid, -⟩
        simp [deleteTaskRow] at hx
        exact hx.2 hid
      have ht2 := firstTaskIn_eq_none.2 hno
      simp [DeleteTask, GetUserIDFromContext, hf2, ht2]

/-- C11, instance: user 1 deletes project 11 of the sample store twice, and task 100 of
project 10 twice; each first request answers 200 and each second one 404. -/
theorem C11_repeated_delete_is_not_found_witness :
    (DeleteProject sampleStore (some 11) (.uuid 1)).1.status = 200 ∧
    (DeleteProject (DeleteProject sampleStore (some 11) (.uuid 1)).2 (some 11)
      (.uuid 1)).1.status = 404 ∧
    (DeleteTask sampleStore (some 10) (some 100) (.uuid 1)).1.status = 200 ∧
    (DeleteTask (DeleteTask sampleStore (some 10) (some 100) (.uuid 1)).2 (some 10) (some 100)
      (.uuid 1)).1.status = 404 := by
  have h1 : (DeleteProject sampleStore (some 11) (.uuid 1)).1.status = 200 := by decide
  have h2 : (DeleteTask sampleStore (some 10) (some 100) (.uuid 1)).1.status = 200 := by decide
  have hp := (C11_repeated_delete_is_not_found sampleStore 1 11 100).1 h1
  have ht := (C11_repeated_delete_is_not_found sampleStore 1 10 100).2 h2
  exact ⟨h1, by rw [hp], h2, by rw [ht]⟩

/-! ## referential integrity -/

theorem refIntegrity_createProjectRow {db db1 : Store} {r : ProjectRow} {usr : User}
    (h : RefIntegrity db) (hu : firstUser db r.CreatedByID = some usr)
    (hc : createProjectRow db r = some db1) : RefIntegrity db1 := by
  unfold createProjectRow at hc
  split at hc
  · simp at hc
  · simp only [Option.some.injEq] at hc
    subst hc
    refine ⟨fun t ht => ?_, fun p hp => ?_⟩
    · obtain ⟨q, hq, hqe⟩ := h.1 t ht
      exact ⟨q, List.mem_append_left _ hq, hqe⟩
    · simp only [List.mem_append, List.mem_singleton] at hp
      rcases hp with hp | hp
      · exact h.2 p hp
      · subst hp
        have h1 := List.find?_some hu
        have h2 := List.mem_of_find?_eq_some hu
        exact ⟨usr, h2, by simpa using h1⟩

theorem refIntegrity_updatesProject {db : Store} (h : RefIntegrity db) (id : UUID)
    (n d : String) : RefIntegrity (updatesProject db id ⟨0, n, d, 0⟩) := by
  refine ⟨fun t ht => ?_, fun p hp => ?_⟩
  · obtain ⟨q, hq, hqe⟩ := h.1 t ht
    refine ⟨if q.ID = id then ProjectRow.assign ⟨0, n, d, 0⟩ q else q, ?_, ?_⟩
    · simp only [updatesProject, List.mem_map]
      exact ⟨q, hq, rfl⟩
    · split <;> simp [ProjectRow.assign, hqe]
  · simp only [updatesProject, List.mem_map] at hp
    obtain ⟨q, hq, hqe⟩ := hp
    obtain ⟨usr, hu, hue⟩ := h.2 q hq
    refine ⟨usr, hu, ?_⟩
    rw [← hqe]
    split <;> simp [ProjectRow.assign, hue]

theorem refIntegrity_deleteProject {db : Store} (h : RefIntegrity db) (p : UUID) :
    RefIntegrity (deleteProjectRow (deleteTasksOfProject db p) p) := by
  refine ⟨fun t ht => ?_, fun q hq => ?_⟩
  · simp [deleteProjectRow, deleteTasksOfProject] at ht
    obtain ⟨q, hq, hqe⟩ := h.1 t ht.1
    refine ⟨q, ?_, hqe⟩
    simp only [deleteProjectRow, deleteTasksOfProject, List.mem_filter, bne_iff_ne]
    exact ⟨hq, by rw [hqe]; exact ht.2⟩
  · simp [deleteProjectRow, deleteTasksOfProject] at hq
    exact h.2 q hq.1

theorem refIntegrity_createTaskRow {db db1 : Store} {r : TaskRow}
    (h : RefIntegrity db) (hp : ∃ q ∈ db.projects, q.ID = r.ProjectID)
    (hc : createTaskRow db r = some db1) : RefIntegrity db1 := by
  unfold createTaskRow at hc
  split at hc
  · simp at hc
  · simp only [Option.some.injEq] at hc
    subst hc
    refine ⟨fun t ht => ?_, h.2⟩
    simp only [List.mem_append, List.mem_singleton] at ht
    rcases ht with ht | ht
    · exact h.1 t ht
    · subst ht
      exact hp

theorem refIntegrity_updatesTask {db db1 : Store} {id : UUID} {u : TaskRow}
    (h : RefIntegrity db) (hp : ∃ q ∈ db.projects, q.ID = u.ProjectID)
    (hc : updatesTask db id u = some db1) : RefIntegrity db1 := by
  unfold updatesTask at hc
  split at hc
  · simp at hc
  · simp only [Option.some.injEq] at hc
    subst hc
    refine ⟨fun t ht => ?_, h.2⟩
    simp only [setTasks, List.mem_map] at ht
    obtain ⟨x, hx, hxe⟩ := ht
    by_cases hxi : x.ID = id
    · rw [if_pos hxi] at hxe
      subst hxe
      by_cases hz : u.ProjectID = 0
      · simpa [TaskRow.assign, hz] using h.1 x hx
      · simpa [TaskRow.assign, hz] using hp
    · rw [if_neg hxi] at hxe
      subst hxe
      exact h.1 x hx

theorem refIntegrity_deleteTaskRow {db : Store} (h : RefIntegrity db) (id : UUID) :
    RefIntegrity (deleteTaskRow db id) := by
  refine ⟨fun t ht => ?_, h.2⟩
  simp [deleteTaskRow] at ht
  exact h.1 t ht.1

theorem exists_project_of_owned {db : Store} {p u : UUID} {r : ProjectRow}
    (hf : firstOwnedProject db p u = some r) : ∃ q ∈ db.projects, q.ID = p :=
  ⟨r, (firstOwnedProject_eq_some hf).1, (firstOwnedProject_eq_some hf).2.1⟩

theorem CreateProject_refIntegrity {db : Store} (h : RefIntegrity db)
    (body : Option InputProject) (newID : UUID) :
    RefIntegrity (CreateProject db body newID).2 := by
  cases body with
  | none => exact h
  | some input =>
    by_cases hv : input.Name = "" ∨ input.CreatedByID = 0
    · simpa [CreateProject, hv] using h
    · cases hu : firstUser db input.CreatedByID with
      | none => simpa [CreateProject, hv, hu] using h
      | some usr =>
        cases hc : createProjectRow db ⟨newID, input.Name, input.Description,
            input.CreatedByID⟩ with
        | none => simpa [CreateProject, hv, hu, hc] using h
        | some db1 =>
          have h1 : RefIntegrity db1 := refIntegrity_createProjectRow h hu hc
          cases hr : firstProject db1 newID with
          | none => simpa [CreateProject, hv, hu, hc, hr] using h1
          | some row => simpa [CreateProject, hv, hu, hc, hr] using h1

theorem UpdateProject_refIntegrity {db : Store} (h : RefIntegrity db) (id : Option UUID)
    (c : CtxUser) (body : Option UpdateProjectInput) :
    RefIntegrity (UpdateProject db id c body).2 := by
  cases id with
  | none => exact h
  | some projectID =>
    cases c with
    | missing => exact h
    | otherType => exact h
    | uuid userID =>
      cases body with
      | none => exact h
      | some input =>
        cases hf : firstOwnedProject db projectID userID with
        | none => simpa [UpdateProject, GetUserIDFromContext, hf] using h
        | some project =>
          have h1 := refIntegrity_updatesProject h project.ID input.Name input.Description
          have hid : (ProjectRow.assign ⟨0, input.Name, input.Description, 0⟩ project).ID =
              project.ID := by simp [ProjectRow.assign]
          cases hr : firstProject
              (updatesProject db project.ID ⟨0, input.Name, input.Description, 0⟩)
              project.ID with
          | none => simpa [UpdateProject, GetUserIDFromContext, hf, hid, hr] using h1
          | some row => simpa [UpdateProject, GetUserIDFromContext, hf, hid, hr] using h1

theorem DeleteProject_refIntegrity {db : Store} (h : RefIntegrity db) (id : Option UUID)
    (c : CtxUser) : RefIntegrity (DeleteProject db id c).2 := by
  cases id with
  | none => exact h
  | some projectID =>
    cases c with
    | missing => exact h
    | otherType => exact h
    | uuid userID =>
      cases hf : firstOwnedProject db projectID userID with
      | none => simpa [DeleteProject, GetUserIDFromContext, hf] using h
      | some project =>
        have hid := (firstOwnedProject_eq_some hf).2.1
        simpa [DeleteProject, GetUserIDFromContext, hf, hid] using
          refIntegrity_deleteProject h projectID

theorem CreateTask_refIntegrity {db : Store} (h : RefIntegrity db) (pid : Option UUID)
    (c : CtxUser) (body : Option RawInputTask) (newID : UUID) :
    RefIntegrity (CreateTask db pid c body newID).2 := by
  cases pid with
  | none => exact h
  | some projectID =>
    cases c with
    | missing => exact h
    | otherType => exact h
    | uuid userID =>
      cases hf : firstOwnedProject db projectID userID with
      | none => simpa [CreateTask, GetUserIDFromContext, hf] using h
      | some project =>
        have hp := exists_project_of_owned hf
        cases hb : bindInputTask body with
        | panicked => simpa [CreateTask, GetUserIDFromContext, hf, hb] using h
        | err e => simpa [CreateTask, GetUserIDFromContext, hf, hb] using h
        | ok input =>
          cases hd : input.Deadline with
          | none =>
            cases hc : createTaskRow db ⟨newID, projectID, input.Title, input.Description,
                input.Status, none⟩ with
            | none => simpa [CreateTask, GetUserIDFromContext, hf, hb, hd, hc] using h
            | some db1 =>
              have h1 : RefIntegrity db1 := refIntegrity_createTaskRow h hp hc
              cases hr : firstTask db1 newID with
              | none => simpa [CreateTask, GetUserIDFromContext, hf, hb, hd, hc, hr] using h1
              | some row => simpa [CreateTask, GetUserIDFromContext, hf, hb, hd, hc, hr] using h1
          | some dl =>
            cases hc : createTaskRow db ⟨newID, projectID, input.Title, input.Description,
                input.Status, some dl⟩ with
            | none => simpa [CreateTask, GetUserIDFromContext, hf, hb, hd, hc] using h
            | some db1 =>
              have h1 : RefIntegrity db1 := refIntegrity_createTaskRow h hp hc
              cases hr : firstTask db1 newID with
              | none => simpa [CreateTask, GetUserIDFromContext, hf, hb, hd, hc, hr] using h1
              | some row => simpa [CreateTask, GetUserIDFromContext, hf, hb, hd, hc, hr] using h1

theorem UpdateTask_refIntegrity {db : Store} (h : RefIntegrity db) (pid tid : Option UUID)
    (c : CtxUser) (body : Option RawInputTask) (newID : UUID) :
    RefIntegrity (UpdateTask db pid tid c body newID).2 := by
  cases pid with
  | none => exact h
  | some projectID =>
    cases tid with
    | none => exact h
    | some taskID =>
      cases c with
      | missing => exact h
      | otherType => exact h
      | uuid userID =>
        cases hf : firstOwnedProject db projectID userID with
        | none => simpa [UpdateTask, GetUserIDFromContext, hf] using h
        | some project =>
          have hp := exists_project_of_owned hf
          cases hb : bindInputTask body with
          | panicked => simpa [UpdateTask, GetUserIDFromContext, hf, hb] using h
          | err e => simpa [UpdateTask, GetUserIDFromContext, hf, hb] using h
          | ok input =>
            cases ht : firstTaskIn db taskID projectID with
            | none => simpa [UpdateTask, GetUserIDFromContext, hf, hb, ht] using h
            | some task =>
              cases hc : updatesTask db task.ID ⟨newID, projectID, input.Title,
                  input.Description, input.Status, none⟩ with
              | none =>
                cases hd : input.Deadline <;>
                  simpa [UpdateTask, GetUserIDFromContext, hf, hb, ht, hd, hc] using h
              | some db1 =>
                have h1 : RefIntegrity db1 := refIntegrity_updatesTask h hp hc
                cases hd : input.Deadline <;>
                  simp only [UpdateTask, GetUserIDFromContext, hf, hb, ht, hd, hc] <;>
                  split <;> exact h1

theorem DeleteTask_refIntegrity {db : Store} (h : RefIntegrity db) (pid tid : Option UUID)
    (c : CtxUser) : RefIntegrity (DeleteTask db pid tid c).2 := by
  cases pid with
  | none => exact h
  | some projectID =>
    cases tid with
    | none => exact h
    | some taskID =>
      cases c with
      | missing => exact h
      | otherType => exact h
      | uuid userID =>
        cases hf : firstOwnedProject db projectID userID with
        | none => simpa [DeleteTask, GetUserIDFromContext, hf] using h
        | some project =>
          cases ht : firstTaskIn db taskID projectID with
          | none => simpa [DeleteTask, GetUserIDFromContext, hf, ht] using h
          | some task =>
            simpa [DeleteTask, GetUserIDFromContext, hf, ht] using
              refIntegrity_deleteTaskRow h task.ID

theorem GetProjects_store (db : Store) (c : CtxUser) : (GetProjects db c).2 = db := by
  cases c <;> rfl

theorem GetProjectByID_store (db : Store) (id : Option UUID) (c : CtxUser) :
    (GetProjectByID db id c).2 = db := by
  cases id with
  | none => rfl
  | some projectID =>
    cases c with
    | missing => rfl
    | otherType => rfl
    | uuid userID =>
      cases hf : firstOwnedProject db projectID userID <;>
        simp [GetProjectByID, GetUserIDFromContext, hf]

theorem GetTasksByProject_store (db : Store) (pid : Option UUID) (c : CtxUser) :
    (GetTasksByProject db pid c).2 = db := by
  cases pid with
  | none => rfl
  | some projectID =>
    cases c with
    | missing => rfl
    | otherType => rfl
    | uuid userID =>
      cases hf : firstOwnedProject db projectID userID <;>
        simp [GetTasksByProject, GetUserIDFromContext, hf]

theorem GetTaskByID_store (db : Store) (pid tid : Option UUID) (c : CtxUser) :
    (GetTaskByID db pid tid c).2 = db := by
  cases pid with
  | none => rfl
  | some projectID =>
    cases tid with
    | none => rfl
    | some taskID =>
      cases c with
      | missing => rfl
      | otherType => rfl
      | uuid userID =>
        cases hf : firstOwnedProject db projectID userID with
        | none => simp [GetTaskByID, GetUserIDFromContext, hf]
        | some project =>
          cases ht : firstTaskIn db taskID projectID <;>
            simp [GetTaskByID, GetUserIDFromContext, hf, ht]

theorem serve_refIntegrity {db : Store} (h : RefIntegrity db) (req : Request) :
    RefIntegrity (serve db req).2 := by
  cases req with
  | createProject body newID => exact CreateProject_refIntegrity h body newID
  | getProjects c => simpa [serve, GetProjects_store] using h
  | getProjectByID id c => simpa [serve, GetProjectByID_store] using h
  | updateProject id c body => exact UpdateProject_refIntegrity h id c body
  | deleteProject id c => exact DeleteProject_refIntegrity h id c
  | createTask pid c body newID => exact CreateTask_refIntegrity h pid c body newID
  | getTasksByProject pid c => simpa [serve, GetTasksByProject_store] using h
  | getTaskByID pid tid c => simpa [serve, GetTaskByID_store] using h
  | updateTask pid tid c body newID => exact UpdateTask_refIntegrity h pid tid c body newID
  | deleteTask pid tid c => exact DeleteTask_refIntegrity h pid tid c

theorem CreateProject_unknown_creator (db : Store) (input : InputProject) (newID : UUID)
    (hu : firstUser db input.CreatedByID = none) :
    (CreateProject db (some input) newID).1.status = 400 ∧
    (CreateProject db (some input) newID).2 = db := by
  by_cases hv : input.Name = "" ∨ input.CreatedByID = 0
  · simp [CreateProject, hv]
  · simp [CreateProject, hv, hu]

theorem updatesProject_keys (db : Store) (id : UUID) (n d : String) :
    (updatesProject db id ⟨0, n, d, 0⟩).projects.map (fun r => (r.ID, r.CreatedByID)) =
      db.projects.map (fun r => (r.ID, r.CreatedByID)) := by
  simp only [updatesProject, List.map_map]
  apply List.map_congr_left
  intro r _
  simp only [Function.comp]
  split <;> simp [ProjectRow.assign]

theorem UpdateProject_keys (db : Store) (id : Option UUID) (c : CtxUser)
    (body : Option UpdateProjectInput) :
    (UpdateProject db id c body).2.projects.map (fun r => (r.ID, r.CreatedByID)) =
      db.projects.map (fun r => (r.ID, r.CreatedByID)) := by
  cases id with
  | none => rfl
  | some projectID =>
    cases c with
    | missing => rfl
    | otherType => rfl
    | uuid userID =>
      cases body with
      | none => rfl
      | some input =>
        cases hf : firstOwnedProject db projectID userID with
        | none => simp [UpdateProject, GetUserIDFromContext, hf]
        | some project =>
          have h1 := updatesProject_keys db project.ID input.Name input.Description
          simp only [UpdateProject, GetUserIDFromContext, hf]
          split <;> exact h1

/-- C12: if every task's project id names a project of the store and every project's
creator id names a user of the store, the same holds of the store after any one request to
any project or task handler, whatever the path ids, caller context, body and generated id.
Moreover `CreateProject` answers 400 and changes nothing when `created_by` names no user,
and `UpdateProject` leaves the id and `created_by_id` of every project row as they were. -/
theorem C12_referential_integrity_invariant (db : Store) (h : RefIntegrity db) :
    (∀ req : Request, RefIntegrity (serve db req).2) ∧
    (∀ (input : InputProject) (newID : UUID), firstUser db input.CreatedByID = none →
      (CreateProject db (some input) newID).1.status = 400 ∧
      (CreateProject db (some input) newID).2 = db) ∧
    (∀ (id : Option UUID) (c : CtxUser) (body : Option UpdateProjectInput),
      (UpdateProject db id c body).2.projects.map (fun r => (r.ID, r.CreatedByID)) =
        db.projects.map (fun r => (r.ID, r.CreatedByID))) :=
  ⟨fun req => serve_refIntegrity h req,
   fun input newID hu => CreateProject_unknown_creator db input newID hu,
   fun id c body => UpdateProject_keys db id c body⟩

/-- C12, instance: the sample store has referential integrity, keeps it when user 1 deletes
project 10 (task 100 goes with it), and refuses a project created for the unknown user 7. -/
theorem C12_referential_integrity_invariant_witness :
    RefIntegrity sampleStore ∧
    RefIntegrity (serve sampleStore (.deleteProject (some 10) (.uuid 1))).2 ∧
    (serve sampleStore (.deleteProject (some 10) (.uuid 1))).2.tasks =
      [⟨110, 11, "t110", "", "done", none⟩, ⟨200, 20, "t200", "", "todo", none⟩] ∧
    firstUser sampleStore 7 = none ∧
    (CreateProject sampleStore (some ⟨"p", "", 7⟩) 30).1.status = 400 := by
  have h : RefIntegrity sampleStore := by decide
  have hc := C12_referential_integrity_invariant sampleStore h
  exact ⟨h, hc.1 _, by decide, by decide, (hc.2.1 ⟨"p", "", 7⟩ 30 (by decide)).1⟩

/-! ## listing projects -/

theorem GetProjects_after_create_for_other (db : Store) (u w newID : UUID) (n d : String)
    (hne : w ≠ u) :
    (GetProjects (CreateProject db (some ⟨n, d, w⟩) newID).2 (.uuid u)).1 =
      (GetProjects db (.uuid u)).1 := by
  by_cases hv : n = "" ∨ w = 0
  · simp [CreateProject, hv]
  · cases hu : firstUser db w with
    | none => simp [CreateProject, hv, hu]
    | some usr =>
      by_cases hany : db.projects.any (fun x => x.ID == newID) = true
      · simp [CreateProject, hv, hu, createProjectRow, hany]
      · have hc : createProjectRow db ⟨newID, n, d, w⟩ =
            some { db with projects := db.projects ++ [⟨newID, n, d, w⟩] } := by
          unfold createProjectRow
          rw [if_neg hany]
        have hstore : (CreateProject db (some ⟨n, d, w⟩) newID).2 =
            { db with projects := db.projects ++ [⟨newID, n, d, w⟩] } := by
          simp only [CreateProject, hv, hu, hc, if_false]
          split <;> rfl
        rw [hstore]
        simp [GetProjects, GetUserIDFromContext, List.filter_append, hne, preloadUser,
          firstUser]

/-- C13: for every store and caller `u`, `GetProjects` answers 200 with the projects
(creator joined) of exactly the rows whose `created_by_id` is `u`, in table order, and returns
the store unchanged: every returned project is created by `u` and every row created by `u` is
returned.  A project that a request creates for another user `w` through `created_by` does
not change what `GetProjects` answers to `u`. -/
theorem C13_get_projects_lists_own_projects (db : Store) (u : UUID) :
    GetProjects db (.uuid u) =
      (⟨200, .projects "Projects retrieved successfully"
        ((db.projects.filter (fun r => r.CreatedByID == u)).map (preloadUser db))⟩, db) ∧
    (∀ q ∈ (db.projects.filter (fun r => r.CreatedByID == u)).map (preloadUser db),
      q.CreatedByID = u) ∧
    (∀ r ∈ db.projects, r.CreatedByID = u →
      preloadUser db r ∈ (db.projects.filter (fun r => r.CreatedByID == u)).map
        (preloadUser db)) ∧
    (∀ (w newID : UUID) (n d : String), w ≠ u →
      (GetProjects (CreateProject db (some ⟨n, d, w⟩) newID).2 (.uuid u)).1 =
        (GetProjects db (.uuid u)).1) := by
  refine ⟨rfl, ?_, ?_, fun w newID n d hne => GetProjects_after_create_for_other db u w newID n d hne⟩
  · intro q hq
    simp only [List.mem_map, List.mem_filter, beq_iff_eq] at hq
    obtain ⟨r, ⟨-, hr⟩, hqe⟩ := hq
    rw [← hqe]
    exact hr
  · intro r hr hc
    simp only [List.mem_map, List.mem_filter, beq_iff_eq]
    exact ⟨r, ⟨hr, hc⟩, rfl⟩

/-- C13, instance: user 1 of the sample store lists projects 10 and 11 and not project 20;
after a request creates project 30 for user 2, user 1 still gets the same list. -/
theorem C13_get_projects_lists_own_projects_witness :
    (GetProjects sampleStore (.uuid 1)).1 =
      ⟨200, .projects "Projects retrieved successfully"
        [⟨10, "alpha", "x", 1, ⟨1, "ann", "ann@example.org", "h1"⟩⟩,
         ⟨11, "beta", "y", 1, ⟨1, "ann", "ann@example.org", "h1"⟩⟩]⟩ ∧
    (CreateProject sampleStore (some ⟨"Alpha", "x", 2⟩) 30).1.status = 201 ∧
    (GetProjects (CreateProject sampleStore (some ⟨"Alpha", "x", 2⟩) 30).2 (.uuid 1)).1 =
      (GetProjects sampleStore (.uuid 1)).1 := by
  have h := C13_get_projects_lists_own_projects sampleStore 1
  exact ⟨by decide, by decide, h.2.2.2 2 30 "Alpha" "x" (by decide)⟩

/-! ## totality of date decoding -/

theorem CustomDate_UnmarshalJSON_panicked_iff (b : List Nat) :
    CustomDate.UnmarshalJSON b = .panicked ↔ b.length < 2 := by
  unfold CustomDate.UnmarshalJSON
  by_cases h : b.length < 2
  · simp [h]
  · simp only [h, if_false, iff_false]
    cases timeParse (List.take (b.length - 2) (List.drop 1 b)) <;> simp

/-- C14: the code at the failing inputs.  On the one-byte input `5` (a JSON number) and on
the empty input, `CustomDate.UnmarshalJSON` returns neither nil nor an error: the slice
expression `s[1 : len(s)-1]` is out of range and the call panics. -/
theorem C14_unmarshal_short_input_panics :
    CustomDate.UnmarshalJSON (ascii "5") = .panicked ∧
    CustomDate.UnmarshalJSON [] = .panicked ∧
    (ascii "5").length = 1 := by
  decide

end Taskify
